import Mathlib

/-!
# check_database: a shallow embedding of `main.go`

The program loads a TOML configuration (a main file plus the fragments of an
include directory), and either lists the configured databases / queries or
runs one query against one database, classifies the single numeric result
against two thresholds and renders a message.

Modelling conventions

* A Go `map[string]V` is an association list `List (String × V)` whose keys are
  pairwise distinct; the order of the list is the order in which a `range`
  statement visits the entries.  Go leaves that order unspecified, so every
  statement below is quantified over all lists.
* Go's `int` is `Int`; `float64` values are taken from an arbitrary linearly
  ordered type `R` (the non-NaN values, compared with `<=` and `>=`).
* The TOML reader, the file system, the `flag` parser, the SQL driver and the
  template engine are outside the repository; what they return is supplied by
  an environment record.  Of `text/tabwriter` the cutting of its input into
  lines and cells is modelled, the padding is not.
* What the process does is recorded as a list of events together with the way
  the process (or function) ended.
-/

set_option linter.dupNamespace false

namespace CheckDatabase

/-! ## Data model (main.go 26-56) -/

/-- Go type `Parameter`. -/
structure Parameter where
  Name : String
  Descr : String
  Value : String
deriving DecidableEq, Repr

/-- Go type `Query`. -/
structure Query where
  Query : String
  Parameters : List Parameter
  Doc : String
  Message : String
deriving DecidableEq, Repr

/-- Go type `Database` (the field `Type` is spelled `Typ`, `Type` being reserved). -/
structure Database where
  Typ : String
  Username : String
  Password : String
  Hostname : String
  Port : Int
  Database : String
  SSL : String
deriving DecidableEq, Repr

/-- Go `map[string]V`: entries in iteration order, keys pairwise distinct. -/
abbrev GoMap (V : Type) := List (String × V)

/-- The keys of a map, in iteration order. -/
def GoMap.keys {V : Type} (m : GoMap V) : List String := m.map Prod.fst

/-- Go `v, found := m[k]`. -/
def GoMap.get {V : Type} (m : GoMap V) (k : String) : Option V := m.lookup k

/-- Go `_, found := m[k]`. -/
def GoMap.found {V : Type} (m : GoMap V) (k : String) : Bool := (m.lookup k).isSome

/-- Go `m[k] = v` for a key that is not in the map yet (the only way the
program writes to a map). -/
def GoMap.set {V : Type} (m : GoMap V) (k : String) (v : V) : GoMap V := m ++ [(k, v)]

/-- Go type `Config`. -/
structure Config where
  IncludeDir : String
  Queries : GoMap Query
  Databases : GoMap Database
deriving DecidableEq, Repr

/-! ## Connection strings (main.go 302-346) -/

/-- Go `fmt.Sprintf("%d", n)` for an `int`. -/
def fmtInt (n : Int) : String := toString n

/-- Go method `(*Database).String`. -/
def Database.String (db : CheckDatabase.Database) : String :=
  let res := ""
  if db.Typ = "postgres" then
    let res := if db.Username ≠ "" then res ++ (" user=" ++ db.Username) else res
    let res := if db.Password ≠ "" then res ++ (" password=" ++ db.Password) else res
    let res := if db.Hostname ≠ "" then res ++ (" host=" ++ db.Hostname) else res
    let res := if db.Port ≠ 0 then res ++ (" port=" ++ fmtInt db.Port) else res
    let res := if db.Database ≠ "" then res ++ (" dbname=" ++ db.Database) else res
    let res := if db.SSL ≠ "" then res ++ (" sslmode=" ++ db.SSL) else res
    res
  else if db.Typ = "mysql" then
    let res :=
      if db.Username ≠ "" then
        let res := db.Username
        let res := if db.Password ≠ "" then res ++ (":" ++ db.Password) else res
        res ++ "@"
      else res
    let res :=
      if db.Hostname ≠ "" then
        let res := res ++ ("tcp(" ++ db.Hostname)
        let res := if db.Port ≠ 0 then res ++ (":" ++ fmtInt db.Port) else res
        res ++ ")"
      else res
    let res := if db.Database ≠ "" then res ++ ("/" ++ db.Database) else res
    res
  else
    "unsupported database type " ++ db.Typ

/-! ## Threshold evaluation (main.go 260-280) -/

/-- The level and level name computed in `runCommand` from the scanned
result and the two global flags `-warn` and `-error`. -/
def evaluate {R : Type} [LinearOrder R] (result warnLevel critLevel : R) : Nat × String :=
  let level : Nat :=
    if critLevel ≤ warnLevel then
      if result ≤ critLevel then 2
      else if result ≤ warnLevel then 1
      else 0
    else
      if result ≥ critLevel then 2
      else if result ≥ warnLevel then 1
      else 0
  let levelName :=
    if level = 2 then "critical"
    else if level = 1 then "warning"
    else "okay"
  (level, levelName)

/-! ## Processes -/

/-- What the process does to the outside world. -/
inductive Event where
  /-- Bytes written to `os.Stdout`. -/
  | stdout (s : String)
  /-- Bytes written to `os.Stderr` (also `flag.CommandLine.Output()`). -/
  | stderr (s : String)
  /-- A call of `flag.Usage()`, which writes the usage text. -/
  | usage
  /-- The `w.Flush()` of the tabwriter: the strings written to it, one for each
  `Fprintf`, are laid out as a table and written to `os.Stdout`. -/
  | table (writes : List String)
  /-- A call `sql.Open(driver, dsn)`. -/
  | sqlOpen (driver dsn : String)
  /-- A call `conn.QueryRow(query, args...)` followed by `row.Scan`. -/
  | queryRow (query : String) (args : List String)
  /-- A call `conn.Close()`. -/
  | connClose
deriving DecidableEq, Repr

/-- How a function body (and with it the process) ended. -/
inductive Status where
  /-- The function returned to its caller. -/
  | returned
  /-- The process ended in `os.Exit(code)`. -/
  | exited (code : Nat)
  /-- The process ended in a Go panic. -/
  | panicked (msg : String)
deriving DecidableEq, Repr

/-- The events of a run and the way it ended. -/
structure Outcome where
  events : List Event
  status : Status
deriving DecidableEq, Repr

/-- Go `os.Exit(code)`: the process ends at once, the deferred calls that are
still pending are not run. -/
def osExit (events _deferred : List Event) (code : Nat) : Outcome :=
  ⟨events, .exited code⟩

/-- A Go panic that nobody recovers: the pending deferred calls run, then the
process dies. -/
def goPanic (events deferred : List Event) (msg : String) : Outcome :=
  ⟨events ++ deferred, .panicked msg⟩

/-- A normal return of a function: the pending deferred calls run. -/
def goReturn (events deferred : List Event) : Outcome :=
  ⟨events ++ deferred, .returned⟩

/-- Everything written to `os.Stdout` by plain writes, in order. -/
def stdoutText : List Event → String
  | [] => ""
  | .stdout s :: es => s ++ stdoutText es
  | _ :: es => stdoutText es

/-! ## The environment -/

/-- Result of `toml.LoadFile` followed by `Unmarshal`. -/
inductive Loaded where
  | loadError (err : String)
  | parseError (err : String)
  | ok (config : Config)
deriving DecidableEq, Repr

/-- Result of `flags.Parse(args)` on a `flag.ExitOnError` flag set: either the
parser wrote a message and left the process with `code`, or it returned, and
`value name` is then what the string variable of flag `name` holds (`""`, the
default, when the flag was not given). -/
inductive FlagsResult where
  | exit (message : String) (code : Nat)
  | parsed (value : String → String)

/-- Result of `row.Scan(&result)`. -/
inductive ScanResult (R : Type) where
  | value (result : R)
  | errNoRows
  | err (msg : String)
deriving DecidableEq, Repr

/-- The variables handed to the message template. -/
structure Vars (R : Type) where
  DBName : String
  DB : Database
  QueryName : String
  Query : Query
  Result : R
  Level : Nat
  LevelName : String
  LimitCritical : R
  LimitWarn : R
deriving DecidableEq, Repr

/-- The command line after `flag.Parse()`: the three global flags and the
remaining arguments `flag.Args()`. -/
structure CommandLine (R : Type) where
  configPath : String
  warnLevel : R
  critLevel : R
  args : List String
deriving DecidableEq, Repr

/-- Go `flag.Arg(i)`: the i-th remaining argument, `""` when there is none. -/
def CommandLine.arg {R : Type} (cl : CommandLine R) (i : Nat) : String := cl.args.getD i ""

/-- Result of `flag.Parse()` on the command line, whose flag set is
`flag.ExitOnError`: a flag error (the parser prints the error and calls
`flag.Usage`, then `os.Exit(2)`), a request for help with `-h` or `-help`
(the parser calls `flag.Usage`, then `os.Exit(0)`), or the parsed command
line. -/
inductive ParseResult (R : Type) where
  | failed (message : String)
  | help
  | parsed (cl : CommandLine R)
deriving DecidableEq, Repr

/-- The libraries and the outside world. -/
structure Env (R : Type) where
  /-- Go `flag.Parse()` on the arguments `os.Args[1:]`. -/
  flagParse : List String → ParseResult R
  /-- Go `toml.LoadFile(path)` followed by `Unmarshal`. -/
  loadFile : String → Loaded
  /-- Go `ioutil.ReadDir(dir)`: the names of the entries, or an error. -/
  readDir : String → Except String (List String)
  /-- Go `path.IsAbs`, `path.Join` (of two elements), `path.Dir`. -/
  pathIsAbs : String → Bool
  pathJoin : String → String → String
  pathDir : String → String
  /-- Whether `template.New("default").Parse(text)` succeeds. -/
  templateParse : String → Bool
  /-- Go `flags.Parse(args)` for the flag set with the given name and the
  declared string flags `(name, usage)`. -/
  flagsParse : String → List (String × String) → List String → FlagsResult
  /-- Go `sql.Open(driver, dsn)`: `none`, or the error. -/
  sqlOpen : String → String → Option String
  /-- Go `conn.QueryRow(query, args...).Scan(&result)` on the connection `dsn`. -/
  scan : String → String → List String → ScanResult R
  /-- Go `tmpl.Execute(os.Stdout, vars)`: what was written, and the error if any. -/
  templateExecute : String → Vars R → String × Option String

/-! ## Loading the configuration (main.go 130-206) -/

/-- The exit taken by `newConfig` after `fmt.Printf(msg)`: `os.Exit(1)`. -/
def configError (msg : String) : Outcome := osExit [.stdout msg] [] 1

/-- Lines 168-174: the loop over the queries of one fragment. -/
def mergeQueries (entryName : String) : GoMap Query → GoMap Query → Except Outcome (GoMap Query)
  | [], acc => .ok acc
  | (k, v) :: rest, acc =>
    if acc.found k then
      .error (configError
        ("query '" ++ k ++ "' already exists in config, duplicate in file '" ++ entryName ++ "'\n"))
    else mergeQueries entryName rest (acc.set k v)

/-- Lines 175-181: the loop over the databases of one fragment. -/
def mergeDatabases (entryName : String) :
    GoMap Database → GoMap Database → Except Outcome (GoMap Database)
  | [], acc => .ok acc
  | (k, v) :: rest, acc =>
    if acc.found k then
      .error (configError
        ("server key '" ++ k ++ "' already exists in config, duplicate in file '" ++ entryName ++ "'\n"))
    else mergeDatabases entryName rest (acc.set k v)

/-- Lines 168-181: one fragment is merged into the accumulated config. -/
def mergeFragment (entryName : String) (tmpConf config : Config) : Except Outcome Config :=
  match mergeQueries entryName tmpConf.Queries config.Queries with
  | .error o => .error o
  | .ok qs =>
    match mergeDatabases entryName tmpConf.Databases config.Databases with
    | .error o => .error o
    | .ok dbs => .ok { config with Queries := qs, Databases := dbs }

/-- Lines 157-182: the loop over the entries of the include directory. -/
def mergeEntries {R : Type} (env : Env R) (includeDir : String) :
    List String → Config → Except Outcome Config
  | [], config => .ok config
  | entry :: rest, config =>
    match env.loadFile (env.pathJoin includeDir entry) with
    | .loadError err =>
      .error (configError ("could not open file '" ++ entry ++ "': " ++ err ++ "\n"))
    | .parseError err =>
      .error (configError ("could not parse file '" ++ entry ++ "': " ++ err ++ "\n"))
    | .ok tmpConf =>
      match mergeFragment entry tmpConf config with
      | .error o => .error o
      | .ok config => mergeEntries env includeDir rest config

/-- Lines 185-203: the body of the loop over the databases. -/
def postProcessDatabase (db : Database) : Except Outcome Database :=
  let db := if db.Typ = "" then { db with Typ := "postgres" } else db
  if db.Port = 0 then
    let switched : Except Outcome Database :=
      if db.Typ = "mysql" then .ok { db with Port := 3306 }
      else if db.Typ = "postgres" then .ok { db with Port := 5432 }
      else .error (osExit [.stdout ("unknown database type for '" ++ db.Typ ++ "'")] [] 1)
    match switched with
    | .error o => .error o
    | .ok db =>
      if db.Typ = "mysql" then .ok { db with Port := 3306 } else .ok { db with Port := 5432 }
  else .ok db

/-- Lines 184-204: the loop over the databases of the merged config. -/
def postProcess : GoMap Database → Except Outcome (GoMap Database)
  | [] => .ok []
  | (k, db) :: rest =>
    match postProcessDatabase db with
    | .error o => .error o
    | .ok db =>
      match postProcess rest with
      | .error o => .error o
      | .ok rest => .ok ((k, db) :: rest)

/-- Go function `newConfig`.  (Lines 141-146 replace a nil map by an empty
one; both are the empty list here.) -/
def newConfig {R : Type} (env : Env R) (configPath : String) : Except Outcome Config :=
  match env.loadFile configPath with
  | .loadError err => .error (configError ("could not load main config file: " ++ err ++ "\n"))
  | .parseError err => .error (configError ("could not parse config: " ++ err ++ "\n"))
  | .ok config =>
    let merged : Except Outcome Config :=
      if config.IncludeDir ≠ "" then
        let includeDir :=
          if !env.pathIsAbs config.IncludeDir then
            env.pathJoin (env.pathDir configPath) config.IncludeDir
          else config.IncludeDir
        match env.readDir includeDir with
        | .error err => .error (configError ("could not open directory: " ++ err ++ "\n"))
        | .ok entries => mergeEntries env includeDir entries config
      else .ok config
    match merged with
    | .error o => .error o
    | .ok config =>
      match postProcess config.Databases with
      | .error o => .error o
      | .ok dbs => .ok { config with Databases := dbs }

/-! ## Running a query (main.go 208-300) -/

/-- Lines 234-241: the loop over the flag variables `params`, the i-th of
which belongs to `query.Parameters[i]`.  The first empty one ends the loop
with the name of its parameter; otherwise every `Value` is set. -/
def bindParameters : List (Parameter × String) → Except String (List Parameter)
  | [] => .ok []
  | (p, v) :: rest =>
    if v = "" then .error p.Name
    else
      match bindParameters rest with
      | .error name => .error name
      | .ok ps => .ok ({ p with Value := v } :: ps)

/-- Lines 224-231: the string flags declared for a query, `(name, usage)`. -/
def declaredFlags (ps : List Parameter) : List (String × String) :=
  ps.map fun p => (p.Name, if p.Descr ≠ "" then p.Descr else "parameter for " ++ p.Name)

/-- Lines 243-300 of `runCommand`: the connection is opened, the query is run
and its result is classified and rendered.  `query` carries the bound
parameters and `params` are the flag variables. -/
def runQuery {R : Type} [LinearOrder R] (env : Env R) (warnLevel critLevel : R)
    (queryName dbName : String) (query : Query) (db : Database) (params : List String) :
    Outcome :=
  let events := [Event.sqlOpen db.Typ db.String]
  match env.sqlOpen db.Typ db.String with
  | some err => osExit (events ++ [.stderr ("could not open connection: " ++ err ++ "\n")]) [] 1
  | none =>
  let deferred := [Event.connClose]
  let events := events ++ [.queryRow query.Query params]
  match env.scan db.String query.Query params with
  | .err msg =>
    osExit (events ++ [.stderr ("could not receive result: " ++ msg ++ "\n")]) deferred 1
  | .errNoRows => osExit (events ++ [.stdout "no value returned by query\n"]) deferred 1
  | .value result =>
  let (level, levelName) := evaluate result warnLevel critLevel
  let vars : Vars R :=
    { DBName := dbName, DB := db, QueryName := queryName, Query := query, Result := result,
      Level := level, LevelName := levelName, LimitCritical := critLevel, LimitWarn := warnLevel }
  match env.templateExecute query.Message vars with
  | (written, some err) =>
    osExit (events ++ [.stdout written, .stderr ("could not render template of query '"
      ++ queryName ++ "': " ++ err ++ "\n")]) deferred 1
  | (written, none) =>
    osExit (events ++ [.stdout written, .stdout "\n"]) deferred level

/-- Go function `runCommand`, lines 209-241 followed by `runQuery`, with the
global flags `*warnLevel` and `*critLevel` as arguments.  `template.Must`
panics when the message does not parse, and `flags.StringVar` panics when a
flag name is declared twice. -/
def runCommand {R : Type} [LinearOrder R] (env : Env R) (warnLevel critLevel : R)
    (config : Config) (queryName dbName : String) (args : List String) : Outcome :=
  match config.Queries.get queryName with
  | none => osExit [.stderr ("could not find query '" ++ queryName ++ "'\n")] [] 1
  | some query =>
  match config.Databases.get dbName with
  | none => osExit [.stderr ("could not find database '" ++ dbName ++ "'\n")] [] 1
  | some db =>
  if !env.templateParse query.Message then goPanic [] [] "template.Must" else
  if ¬ (query.Parameters.map Parameter.Name).Nodup then goPanic [] [] "flag redefined" else
  match env.flagsParse ("check_database run " ++ queryName ++ " on " ++ dbName)
      (declaredFlags query.Parameters) args with
  | .exit message code => osExit [.stderr message] [] code
  | .parsed value =>
  let params := query.Parameters.map fun p => value p.Name
  match bindParameters (query.Parameters.zip params) with
  | .error name => osExit [.stderr ("parameter '" ++ name ++ "' is empty")] [] 1
  | .ok parameters =>
    runQuery env warnLevel critLevel queryName dbName { query with Parameters := parameters }
      db params

/-! ## The command dispatcher (main.go 58-128) -/

/-- Go `a <= b` on strings.  Go compares strings byte by byte, which on UTF-8
text is the lexicographic order of the code points, the order of `String`;
it is written here on the character lists. -/
def stringLE (a b : String) : Prop := a.toList ≤ b.toList

instance : DecidableRel stringLE := fun a b => by unfold stringLE; infer_instance

/-- Go `sort.Strings`. -/
def sortStrings (l : List String) : List String := l.insertionSort stringLE

/-- Line 102: the string written for one database,
`Fprintf(w, "%s\t%s\t%s:%d\t%s\t%s\n", ...)`. -/
def databaseLine (name : String) (db : Database) : String :=
  db.Typ ++ "\t" ++ name ++ "\t" ++ db.Hostname ++ ":" ++ fmtInt db.Port ++ "\t" ++
    db.Database ++ "\t" ++ db.Username ++ "\n"

/-- Lines 100-103: the loop over the sorted names; `config.Databases[name]` is
a pointer, nil for a name that is not in the map, and dereferencing nil
panics (`none`). -/
def databaseRows (databases : GoMap Database) : List String → Option (List String)
  | [] => some []
  | name :: rest =>
    match databases.get name with
    | none => none
    | some db =>
      match databaseRows databases rest with
      | none => none
      | some rows => some (databaseLine name db :: rows)

/-- Lines 92-103: the strings written to the tabwriter by `list databases`,
the header first. -/
def listDatabases (config : Config) : Option (List String) :=
  let dbs := sortStrings config.Databases.keys
  match databaseRows config.Databases dbs with
  | none => none
  | some rows => some ("type\tname\thostname\tdatabase\tuser\n" :: rows)

/-- The zero value of `Query`, which `config.Queries[name]` yields for a name
that is not in the map. -/
def Query.zero : CheckDatabase.Query := ⟨"", [], "", ""⟩

/-- Lines 114-120: the string written for one query,
`Fprintf(w, "%s\t%s\t%s\n", name, strings.Join(params, ", "), q.Doc)`. -/
def queryLine (name : String) (q : Query) : String :=
  let params := sortStrings (q.Parameters.map Parameter.Name)
  name ++ "\t" ++ ", ".intercalate params ++ "\t" ++ q.Doc ++ "\n"

/-- Lines 105-121: the strings written to the tabwriter by `list queries`,
the header first. -/
def listQueries (config : Config) : List String :=
  let qs := sortStrings config.Queries.keys
  "name\tparameters\tdescription\n" ::
    qs.map fun name => queryLine name ((config.Queries.get name).getD Query.zero)

/-- A line break of `text/tabwriter`: newline or formfeed. -/
def isLineBreak (c : Char) : Bool := c == Char.ofNat 10 || c == Char.ofNat 12

/-- A cell terminator of `text/tabwriter`: horizontal or vertical tab. -/
def isCellEnd (c : Char) : Bool := c == Char.ofNat 9 || c == Char.ofNat 11

/-- The pieces of a text between the characters that satisfy `p`. -/
def splitWhere (p : Char → Bool) : List Char → List (List Char)
  | [] => [[]]
  | c :: cs =>
    if p c then [] :: splitWhere p cs
    else
      match splitWhere p cs with
      | [] => [[c]]
      | piece :: pieces => (c :: piece) :: pieces

/-- The table that `text/tabwriter` prints for the strings written to it: the
text is cut into lines at newlines and formfeeds (a last line that is not
terminated counts when it is not empty), and every line into cells at
horizontal and vertical tabs; the writer only pads the cells.  The text is
UTF-8, so the escape byte `0xff` does not occur in it. -/
def tableRows (writes : List String) : List (List String) :=
  let pieces := splitWhere isLineBreak (writes.flatMap String.toList)
  let lines := if pieces.getLast? = some [] then pieces.dropLast else pieces
  lines.map fun line => (splitWhere isCellEnd line).map String.mk

/-- Go function `main`, lines 72-127; `flag.Usage` is the function set in
lines 59-71. -/
def main {R : Type} [LinearOrder R] (env : Env R) (osArgs : List String) : Outcome :=
  match env.flagParse osArgs with
  | .failed message => osExit [.stderr message, .usage] [] 2
  | .help => osExit [.usage] [] 0
  | .parsed cl =>
  match newConfig env cl.configPath with
  | .error o => o
  | .ok config =>
    if cl.arg 0 = "" ∨ cl.arg 0 = "help" then
      osExit [.usage] [] 0
    else if cl.arg 0 = "run" then
      if cl.args.length < 4 then osExit [.usage] [] 0
      else runCommand env cl.warnLevel cl.critLevel config (cl.arg 1) (cl.arg 3) (cl.args.drop 4)
    else if cl.arg 0 = "list" then
      if cl.arg 1 = "databases" then
        match listDatabases config with
        | none => goPanic [] [] "nil pointer dereference"
        | some writes => goReturn [.table writes] []
      else if cl.arg 1 = "queries" then goReturn [.table (listQueries config)] []
      else osExit [.stderr "possible objects to list: databases, queries\n"] [] 0
    else goReturn [] []

/-! ## Descriptions used in the statements -/

/-- The `key=value` entries of a postgres connection string whose field is set
(non-empty, the port non-zero), in the fixed order user, password, host,
port, dbname, sslmode. -/
def postgresEntries (db : Database) : List String :=
  (if db.Username ≠ "" then ["user=" ++ db.Username] else []) ++
  (if db.Password ≠ "" then ["password=" ++ db.Password] else []) ++
  (if db.Hostname ≠ "" then ["host=" ++ db.Hostname] else []) ++
  (if db.Port ≠ 0 then ["port=" ++ fmtInt db.Port] else []) ++
  (if db.Database ≠ "" then ["dbname=" ++ db.Database] else []) ++
  (if db.SSL ≠ "" then ["sslmode=" ++ db.SSL] else [])

/-- The credential segment `username[:password]@` of a mysql connection
string; empty when there is no username. -/
def mysqlCredentials (db : Database) : String :=
  if db.Username = "" then ""
  else db.Username ++ (if db.Password = "" then "" else ":" ++ db.Password) ++ "@"

/-- The address segment `tcp(hostname[:port])` of a mysql connection string;
empty when there is no hostname. -/
def mysqlAddress (db : Database) : String :=
  if db.Hostname = "" then ""
  else "tcp(" ++ db.Hostname ++ (if db.Port = 0 then "" else ":" ++ fmtInt db.Port) ++ ")"

/-- A database that the post-processing rejects: the port is unset and the
type is neither empty nor postgres nor mysql. -/
def UnknownType (db : Database) : Prop :=
  db.Port = 0 ∧ db.Typ ≠ "" ∧ db.Typ ≠ "postgres" ∧ db.Typ ≠ "mysql"

instance : DecidablePred UnknownType := fun db => by unfold UnknownType; infer_instance

/-- The same database with the defaults filled in: an empty type becomes
postgres, a zero port becomes 5432 for postgres and 3306 for mysql. -/
def withDefaults (db : Database) : Database :=
  let typ := if db.Typ = "" then "postgres" else db.Typ
  { db with
    Typ := typ
    Port :=
      if db.Port ≠ 0 then db.Port
      else if typ = "postgres" then 5432
      else if typ = "mysql" then 3306
      else db.Port }

/-- The exit taken for a database of unknown type. -/
def unknownTypeExit (db : Database) : Outcome :=
  ⟨[.stdout ("unknown database type for '" ++ db.Typ ++ "'")], .exited 1⟩

/-- The query with every parameter bound to the value of its flag. -/
def Query.bound (query : CheckDatabase.Query) (value : String → String) : CheckDatabase.Query :=
  { query with Parameters := query.Parameters.map fun p => { p with Value := value p.Name } }

/-- The name under which `runCommand` creates its flag set. -/
def flagSetName (queryName dbName : String) : String :=
  "check_database run " ++ queryName ++ " on " ++ dbName

/-! ## A concrete installation -/

/-- The query of the example: one parameter `a`, message
`{{.Result}} is {{.LevelName}}`. -/
def demoQuery : Query := ⟨"SELECT x", [⟨"a", "", ""⟩], "", "{{.Result}} is {{.LevelName}}"⟩

/-- A postgres database with every field but password and ssl mode set. -/
def demoDatabase : Database := ⟨"postgres", "u", "", "h", 5432, "d", ""⟩

/-- A config with the one query `q` and the one database `db`. -/
def demoConfig : Config := ⟨"", [("q", demoQuery)], [("db", demoDatabase)]⟩

/-- A command-line parser in the manner of `flag.Parse()` that knows `-h`,
`-help` and `-config PATH`, takes every other argument that starts with `-`
for an undefined flag, and sets warn to 10 and crit to 1. -/
def demoFlagParse (configPath : String) : List String → ParseResult Int
  | [] => .parsed ⟨configPath, 10, 1, []⟩
  | [arg] =>
    if arg = "-h" ∨ arg = "-help" then .help
    else if arg = "-config" then .failed "flag needs an argument: -config\n"
    else if arg.toList.head? = some '-' then
      .failed ("flag provided but not defined: " ++ arg ++ "\n")
    else .parsed ⟨configPath, 10, 1, [arg]⟩
  | arg :: next :: rest =>
    if arg = "-h" ∨ arg = "-help" then .help
    else if arg = "-config" then demoFlagParse next rest
    else if arg.toList.head? = some '-' then
      .failed ("flag provided but not defined: " ++ arg ++ "\n")
    else .parsed ⟨configPath, 10, 1, arg :: next :: rest⟩

/-- An environment over integer results: the command line is parsed by
`demoFlagParse`; the given files and directories exist, every template parses and renders
`{{.Result}} is {{.LevelName}}`, the flag parser of a query binds `value`,
the connection opens and the scan yields `scan`. -/
def demoEnv (files : List (String × Loaded)) (dirs : List (String × List String))
    (value : String → String) (scan : ScanResult Int) : Env Int where
  flagParse osArgs := demoFlagParse "check_database.conf" osArgs
  loadFile path :=
    (files.lookup path).getD (.loadError ("open " ++ path ++ ": no such file or directory"))
  readDir dir :=
    match dirs.lookup dir with
    | some entries => .ok entries
    | none => .error ("open " ++ dir ++ ": no such file or directory")
  pathIsAbs _ := false
  pathJoin dir name := dir ++ "/" ++ name
  pathDir _ := "."
  templateParse _ := true
  flagsParse _ _ _ := .parsed value
  sqlOpen _ _ := none
  scan _ _ _ := scan
  templateExecute _ vars := (toString vars.Result ++ " is " ++ vars.LevelName, none)

/-- The exits of `newConfig`: one message on standard output, exit code 1. -/
def IsConfigExit (o : Outcome) : Prop := ∃ msg, o = ⟨[.stdout msg], .exited 1⟩

/-- The string holds no line break of the tabwriter. -/
def NoLineBreak (s : String) : Prop := ∀ c ∈ s.toList, isLineBreak c = false

instance : DecidablePred NoLineBreak := fun s => by unfold NoLineBreak; infer_instance

/-- The string holds no cell terminator of the tabwriter. -/
def NoCellEnd (s : String) : Prop := ∀ c ∈ s.toList, isCellEnd c = false

instance : DecidablePred NoCellEnd := fun s => by unfold NoCellEnd; infer_instance

/-- The database stored under a name of the map. -/
def databaseAt (databases : GoMap Database) (name : String) : Database :=
  (databases.get name).getD ⟨"", "", "", "", 0, "", ""⟩

/-- The query stored under a name of the map. -/
def queryAt (queries : GoMap Query) (name : String) : Query :=
  (queries.get name).getD Query.zero

/-- The characters of the line of one database, without the final newline. -/
def databaseContent (name : String) (db : Database) : List Char :=
  db.Typ.toList ++ Char.ofNat 9 :: (name.toList ++ Char.ofNat 9 ::
    (db.Hostname ++ ":" ++ fmtInt db.Port ++ "\t" ++ db.Database ++ "\t" ++ db.Username).toList)

/-- The characters of the line of one query, without the final newline. -/
def queryContent (name : String) (q : Query) : List Char :=
  name.toList ++ Char.ofNat 9 ::
    ((", ".intercalate (sortStrings (q.Parameters.map Parameter.Name))).toList ++
      Char.ofNat 9 :: q.Doc.toList)

/-- The cells into which the tabwriter cuts a line. -/
def lineCells (line : List Char) : List String := (splitWhere isCellEnd line).map String.mk

/-- A database whose line is one printed row with the name in the second
cell: no printed field holds a line break, and neither the type nor the name
holds a cell terminator. -/
def PlainDatabase (name : String) (db : Database) : Prop :=
  NoCellEnd name ∧ NoLineBreak name ∧ NoCellEnd db.Typ ∧ NoLineBreak db.Typ ∧
  NoLineBreak db.Hostname ∧ NoLineBreak db.Database ∧ NoLineBreak db.Username

instance (name : String) (db : Database) : Decidable (PlainDatabase name db) := by
  unfold PlainDatabase; infer_instance

/-- A query whose line is one printed row with the name in the first cell: no
printed field holds a line break, and the name holds no cell terminator. -/
def PlainQuery (name : String) (q : Query) : Prop :=
  NoCellEnd name ∧ NoLineBreak name ∧ (∀ p ∈ q.Parameters, NoLineBreak p.Name) ∧
  NoLineBreak q.Doc

instance (name : String) (q : Query) : Decidable (PlainQuery name q) := by
  unfold PlainQuery; infer_instance

/-- The name column of the rows printed by `list databases`. -/
def databaseNames (rows : List (List String)) : List String := rows.map fun row => row.getD 1 ""

/-- The name column of the rows printed by `list queries`. -/
def queryNames (rows : List (List String)) : List String := rows.map fun row => row.getD 0 ""

/-- The duplicate-key exit for a query: the message names the key and the
fragment file, exit code 1. -/
def duplicateQueryExit (key file : String) : Outcome :=
  ⟨[.stdout ("query '" ++ key ++ "' already exists in config, duplicate in file '" ++ file
    ++ "'\n")], .exited 1⟩

/-- The duplicate-key exit for a database. -/
def duplicateDatabaseExit (key file : String) : Outcome :=
  ⟨[.stdout ("server key '" ++ key ++ "' already exists in config, duplicate in file '" ++ file
    ++ "'\n")], .exited 1⟩

/-- The main config with the queries and databases of the fragments added,
in listing order. -/
def merged (main : Config) (frags : List (String × Config)) : Config :=
  { main with
    Queries := main.Queries ++ frags.flatMap fun f => f.2.Queries
    Databases := main.Databases ++ frags.flatMap fun f => f.2.Databases }

/-- The fragment defines a query name that `config` has as a query, or a
database name that `config` has as a database. -/
def Collides (config tmpConf : Config) : Prop :=
  (∃ k ∈ tmpConf.Queries.keys, k ∈ config.Queries.keys) ∨
  (∃ k ∈ tmpConf.Databases.keys, k ∈ config.Databases.keys)

instance (config tmpConf : Config) : Decidable (Collides config tmpConf) := by
  unfold Collides; infer_instance

/-- No fragment of the list defines a name already defined by the main config
or by a fragment before it. -/
def NoCollision (main : Config) (frags : List (String × Config)) : Prop :=
  ∀ pre f post, frags = pre ++ f :: post → ¬ Collides (merged main pre) f.2

/-- A config with the two queries `q` and `r`, the description of `q` being
the two lines `a` and `b`. -/
def newlineConfig : Config :=
  ⟨"", [("q", ⟨"SELECT 1", [], "a\nb", "m"⟩), ("r", ⟨"SELECT 2", [], "", "m"⟩)], []⟩

/-- A config with two databases and two queries, stored in decreasing order
of their names. -/
def listConfig : Config :=
  ⟨"", [("q2", demoQuery), ("q1", demoQuery)], [("db2", demoDatabase), ("db1", demoDatabase)]⟩

/-- An installation whose main config includes the directory `conf.d`, which
holds the fragment `a.conf` with a database of empty type and unset port and
a mysql database with unset port; `b.conf`, which holds a database of type
`oracle` with unset port, is listed only by the directory `conf.bad`. -/
def defaultsEnv (includeDir : String) : Env Int :=
  demoEnv
    [("check_database.conf", .ok ⟨includeDir, [], [("db", demoDatabase)]⟩),
     ("./conf.d/a.conf",
       .ok ⟨"", [], [("raw", ⟨"", "u", "", "h", 0, "d", ""⟩),
         ("my", ⟨"mysql", "u", "", "h", 0, "d", ""⟩)]⟩),
     ("./conf.bad/a.conf", .ok ⟨"", [], [("raw", ⟨"", "u", "", "h", 0, "d", ""⟩)]⟩),
     ("./conf.bad/b.conf", .ok ⟨"", [], [("ora", ⟨"oracle", "u", "", "h", 0, "d", ""⟩)]⟩)]
    [("./conf.d", ["a.conf"]), ("./conf.bad", ["a.conf", "b.conf"])] (fun _ => "") .errNoRows

/-- A fragment that defines the one query `q1`. -/
def demoFragment : Config := ⟨"", [("q1", demoQuery)], []⟩

/-- An installation whose main config includes the directory `conf.d`, which
holds the two fragments `a.conf` and `b.conf`, each defining the query `q1`. -/
def duplicateEnv : Env Int :=
  demoEnv
    [("check_database.conf", .ok ⟨"conf.d", [], [("db", demoDatabase)]⟩),
     ("./conf.d/a.conf", .ok demoFragment), ("./conf.d/b.conf", .ok demoFragment)]
    [("./conf.d", ["a.conf", "b.conf"])] (fun _ => "") .errNoRows

/-! ## Threshold evaluation -/

/-- C1: the level and level name computed from result, warn and crit are
(2, critical) / (1, warning) / (0, okay) by the `<=` rule when `crit <= warn`
and by the `>=` rule when `crit > warn`; no other pair is produced; the run
hands exactly this level and name to the template and exits with the level;
and warn=10, crit=1, result=5 gives (1, warning). -/
theorem evaluate_spec :
    (∀ (R : Type) [LinearOrder R] (result warn crit : R),
      (crit ≤ warn → evaluate result warn crit =
        if result ≤ crit then (2, "critical")
        else if result ≤ warn then (1, "warning") else (0, "okay")) ∧
      (crit > warn → evaluate result warn crit =
        if result ≥ crit then (2, "critical")
        else if result ≥ warn then (1, "warning") else (0, "okay")) ∧
      (evaluate result warn crit = (0, "okay") ∨ evaluate result warn crit = (1, "warning") ∨
        evaluate result warn crit = (2, "critical"))) ∧
    (∀ (R : Type) [LinearOrder R] (env : Env R) (warn crit : R) (queryName dbName : String)
      (query : Query) (db : Database) (params : List String) (result : R) (written : String),
      env.sqlOpen db.Typ db.String = none →
      env.scan db.String query.Query params = .value result →
      env.templateExecute query.Message
        { DBName := dbName, DB := db, QueryName := queryName, Query := query, Result := result,
          Level := (evaluate result warn crit).1, LevelName := (evaluate result warn crit).2,
          LimitCritical := crit, LimitWarn := warn } = (written, none) →
      runQuery env warn crit queryName dbName query db params =
        ⟨[.sqlOpen db.Typ db.String, .queryRow query.Query params, .stdout written,
          .stdout "\n"], .exited (evaluate result warn crit).1⟩) ∧
    evaluate (5 : Int) 10 1 = (1, "warning") := by
  refine ⟨fun R _ result warn crit => ⟨fun h => ?_, fun h => ?_, ?_⟩, ?_, by decide⟩
  · unfold evaluate
    simp only [h, if_true]
    split_ifs <;> simp_all
  · unfold evaluate
    simp only [not_le.mpr h, if_false]
    split_ifs <;> simp_all
  · unfold evaluate
    split_ifs <;> simp_all
  · intro R _ env warn crit queryName dbName query db params result written ho hs ht
    unfold runQuery
    simp only [ho, hs, ht, osExit]
    rfl

/-- The instance of C1 at warn=10, crit=1, result=5 (so `crit <= warn`), at
warn=1, crit=10, result=5 (so `crit > warn`), and the run of the example
query with result 5, warn 10 and crit 1. -/
theorem evaluate_spec_witness :
    ((1 : Int) ≤ 10 ∧ evaluate (5 : Int) 10 1 =
        if (5 : Int) ≤ 1 then (2, "critical")
        else if (5 : Int) ≤ 10 then (1, "warning") else (0, "okay")) ∧
    ((10 : Int) > 1 ∧ evaluate (5 : Int) 1 10 =
        if (5 : Int) ≥ 10 then (2, "critical")
        else if (5 : Int) ≥ 1 then (1, "warning") else (0, "okay")) ∧
    runQuery (demoEnv [] [] (fun _ => "foo") (.value 5)) 10 1 "q" "db" demoQuery demoDatabase
        ["foo"] =
      ⟨[.sqlOpen "postgres" demoDatabase.String, .queryRow "SELECT x" ["foo"],
        .stdout "5 is warning", .stdout "\n"], .exited (evaluate (5 : Int) 10 1).1⟩ :=
  ⟨⟨by decide, (evaluate_spec.1 Int 5 10 1).1 (by decide)⟩,
   ⟨by decide, (evaluate_spec.1 Int 5 1 10).2.1 (by decide)⟩,
   evaluate_spec.2.1 Int (demoEnv [] [] (fun _ => "foo") (.value 5)) 10 1 "q" "db" demoQuery
     demoDatabase ["foo"] 5 "5 is warning" rfl rfl rfl⟩

/-! ## Connection strings -/

theorem space_key_append (k x : String) : " " ++ (k ++ x) = (" " ++ k) ++ x :=
  (String.append_assoc " " k x).symm

/-- C4 as stated fails: with only the username set, the postgres connection
string is `" user=u"`, with a space in front, not the entries joined by
single spaces. -/
theorem postgres_string_leading_space :
    (⟨"postgres", "u", "", "", 0, "", ""⟩ : Database).Typ = "postgres" ∧
    Database.String ⟨"postgres", "u", "", "", 0, "", ""⟩ = " user=u" ∧
    Database.String ⟨"postgres", "u", "", "", 0, "", ""⟩ ≠
      " ".intercalate (postgresEntries ⟨"postgres", "u", "", "", 0, "", ""⟩) := by
  decide

/-- C4, amended: for a Database of type postgres the connection string is
empty when no entry is present, and otherwise one space followed by the
present entries (user, password, host, port, dbname, sslmode, in that order)
joined by single spaces. -/
theorem postgres_string (db : Database) (h : db.Typ = "postgres") :
    Database.String db =
      if postgresEntries db = [] then ""
      else " " ++ " ".intercalate (postgresEntries db) := by
  unfold Database.String postgresEntries
  simp only [h, if_true]
  by_cases h1 : db.Username = "" <;> by_cases h2 : db.Password = "" <;>
  by_cases h3 : db.Hostname = "" <;> by_cases h4 : db.Port = 0 <;>
  by_cases h5 : db.Database = "" <;> by_cases h6 : db.SSL = "" <;>
  simp [h1, h2, h3, h4, h5, h6, String.intercalate, String.intercalate.go, String.append_assoc,
    show ∀ x, " " ++ ("user=" ++ x) = " user=" ++ x from fun x => space_key_append _ x,
    show ∀ x, " " ++ ("password=" ++ x) = " password=" ++ x from fun x => space_key_append _ x,
    show ∀ x, " " ++ ("host=" ++ x) = " host=" ++ x from fun x => space_key_append _ x,
    show ∀ x, " " ++ ("port=" ++ x) = " port=" ++ x from fun x => space_key_append _ x,
    show ∀ x, " " ++ ("dbname=" ++ x) = " dbname=" ++ x from fun x => space_key_append _ x,
    show ∀ x, " " ++ ("sslmode=" ++ x) = " sslmode=" ++ x from fun x => space_key_append _ x]

/-- An instance of the amended C4 with every field set. -/
theorem postgres_string_witness :
    (⟨"postgres", "u", "p", "h", 5432, "d", "disable"⟩ : Database).Typ = "postgres" ∧
    Database.String ⟨"postgres", "u", "p", "h", 5432, "d", "disable"⟩ =
      " user=u password=p host=h port=5432 dbname=d sslmode=disable" :=
  ⟨rfl, (postgres_string ⟨"postgres", "u", "p", "h", 5432, "d", "disable"⟩ rfl).trans (by decide)⟩

/-- C5 as stated fails: with an empty database name the mysql connection
string ends after the address segment, without the `/`. -/
theorem mysql_string_no_slash :
    (⟨"mysql", "u", "", "h", 0, "", ""⟩ : Database).Typ = "mysql" ∧
    Database.String ⟨"mysql", "u", "", "h", 0, "", ""⟩ = "u@tcp(h)" ∧
    Database.String ⟨"mysql", "u", "", "h", 0, "", ""⟩ ≠
      mysqlCredentials ⟨"mysql", "u", "", "h", 0, "", ""⟩ ++
        mysqlAddress ⟨"mysql", "u", "", "h", 0, "", ""⟩ ++
        ("/" ++ (⟨"mysql", "u", "", "h", 0, "", ""⟩ : Database).Database) := by
  decide

/-- C5, amended: for a Database of type mysql the connection string is the
credential segment, then the address segment, then `/` and the database name
when the database name is non-empty, and nothing when it is empty. -/
theorem mysql_string (db : Database) (h : db.Typ = "mysql") :
    Database.String db =
      mysqlCredentials db ++ mysqlAddress db ++
        (if db.Database = "" then "" else "/" ++ db.Database) := by
  have hne : db.Typ ≠ "postgres" := by rw [h]; decide
  unfold Database.String mysqlCredentials mysqlAddress
  simp only [h, hne, if_true, if_false]
  by_cases h1 : db.Username = "" <;> by_cases h2 : db.Password = "" <;>
  by_cases h3 : db.Hostname = "" <;> by_cases h4 : db.Port = 0 <;>
  by_cases h5 : db.Database = "" <;>
  simp [h1, h2, h3, h4, h5, String.append_assoc]

/-- An instance of the amended C5 with every field set, and one with a
password but no username. -/
theorem mysql_string_witness :
    (⟨"mysql", "u", "p", "h", 3306, "d", ""⟩ : Database).Typ = "mysql" ∧
    Database.String ⟨"mysql", "u", "p", "h", 3306, "d", ""⟩ = "u:p@tcp(h:3306)/d" :=
  ⟨rfl, (mysql_string ⟨"mysql", "u", "p", "h", 3306, "d", ""⟩ rfl).trans (by decide)⟩

/-! ## Defaults of type and port -/

theorem postProcessDatabase_eq (db : Database) :
    postProcessDatabase db =
      if UnknownType db then .error (unknownTypeExit db) else .ok (withDefaults db) := by
  have hpm : ("postgres" : String) ≠ "mysql" := by decide
  have hpe : ("postgres" : String) ≠ "" := by decide
  obtain ⟨typ, u, p, h, port, d, s⟩ := db
  unfold postProcessDatabase UnknownType withDefaults unknownTypeExit osExit
  by_cases h1 : typ = "" <;> by_cases h2 : port = 0 <;>
  by_cases h3 : typ = "mysql" <;> by_cases h4 : typ = "postgres" <;>
  simp_all

theorem postProcess_eq (dbs : GoMap Database) :
    postProcess dbs =
      match dbs.find? (fun e => decide (UnknownType e.2)) with
      | some e => .error (unknownTypeExit e.2)
      | none => .ok (dbs.map fun e => (e.1, withDefaults e.2)) := by
  induction dbs with
  | nil => rfl
  | cons e rest ih =>
    obtain ⟨k, db⟩ := e
    unfold postProcess
    rw [postProcessDatabase_eq, ih]
    by_cases h : UnknownType db
    · simp [h, List.find?]
    · simp only [h, if_false, List.find?, decide_False, List.map_cons]
      cases rest.find? (fun e => decide (UnknownType e.2)) <;> rfl

/-! ## Running a query -/

theorem bindParameters_ok (value : String → String) (ps : List Parameter)
    (h : ∀ p ∈ ps, value p.Name ≠ "") :
    bindParameters (ps.zip (ps.map fun p => value p.Name)) =
      .ok (ps.map fun p => { p with Value := value p.Name }) := by
  induction ps with
  | nil => rfl
  | cons p ps ih =>
    have hp : value p.Name ≠ "" := h p (List.mem_cons_self _ _)
    have ih := ih fun q hq => h q (List.mem_cons_of_mem _ hq)
    show bindParameters ((p, value p.Name) :: ps.zip (ps.map fun p => value p.Name)) = _
    rw [bindParameters, if_neg hp, ih]
    rfl

theorem bindParameters_error (value : String → String) (pre : List Parameter) (p : Parameter)
    (post : List Parameter) (hpre : ∀ q ∈ pre, value q.Name ≠ "") (hp : value p.Name = "") :
    bindParameters ((pre ++ p :: post).zip ((pre ++ p :: post).map fun p => value p.Name)) =
      .error p.Name := by
  induction pre with
  | nil => simp [bindParameters, hp]
  | cons q pre ih =>
    have hq : value q.Name ≠ "" := hpre q (List.mem_cons_self _ _)
    have ih := ih fun r hr => hpre r (List.mem_cons_of_mem _ hr)
    show bindParameters ((q, value q.Name) ::
      (pre ++ p :: post).zip ((pre ++ p :: post).map fun p => value p.Name)) = _
    rw [bindParameters, if_neg hq, ih]

theorem exists_first {α : Type} (P : α → Prop) (l : List α) (h : ∃ a ∈ l, P a) :
    ∃ pre a post, l = pre ++ a :: post ∧ (∀ b ∈ pre, ¬ P b) ∧ P a := by
  induction l with
  | nil => simp at h
  | cons x xs ih =>
    by_cases hx : P x
    · exact ⟨[], x, xs, rfl, by simp, hx⟩
    · have : ∃ a ∈ xs, P a := by
        obtain ⟨a, ha, hPa⟩ := h
        rcases List.mem_cons.mp ha with rfl | ha
        · exact absurd hPa hx
        · exact ⟨a, ha, hPa⟩
      obtain ⟨pre, a, post, rfl, hpre, ha⟩ := ih this
      refine ⟨x :: pre, a, post, rfl, ?_, ha⟩
      intro b hb
      rcases List.mem_cons.mp hb with rfl | hb
      · exact hx
      · exact hpre b hb

/-- The part of `runCommand` before the parameters are checked, once the
lookups, the template and the flag parser have succeeded. -/
theorem runCommand_parsed {R : Type} [LinearOrder R] (env : Env R) (warn crit : R)
    (config : Config) (queryName dbName : String) (args : List String)
    (query : Query) (db : Database) (value : String → String)
    (hq : config.Queries.get queryName = some query)
    (hdb : config.Databases.get dbName = some db)
    (ht : env.templateParse query.Message = true)
    (hn : (query.Parameters.map Parameter.Name).Nodup)
    (hf : env.flagsParse (flagSetName queryName dbName) (declaredFlags query.Parameters) args =
      .parsed value) :
    runCommand env warn crit config queryName dbName args =
      match bindParameters (query.Parameters.zip (query.Parameters.map fun p => value p.Name)) with
      | .error name => ⟨[.stderr ("parameter '" ++ name ++ "' is empty")], .exited 1⟩
      | .ok parameters =>
        runQuery env warn crit queryName dbName { query with Parameters := parameters } db
          (query.Parameters.map fun p => value p.Name) := by
  unfold flagSetName at hf
  unfold runCommand
  simp only [hq, hdb, ht, hn, hf, Bool.not_true, not_true_eq_false, if_false, osExit]
  rfl

/-- C6: once the lookups, the template and the flag parser have succeeded, a
parameter bound to the empty string makes `runCommand` stop with exit code 1
and the message naming the first such parameter in declaration order, with
no `sql.Open` among its events; and when no parameter is empty, every
`Value` is set to the bound value, in declaration order, before the
connection is opened. -/
theorem runCommand_parameters {R : Type} [LinearOrder R] (env : Env R) (warn crit : R)
    (config : Config) (queryName dbName : String) (args : List String)
    (query : Query) (db : Database) (value : String → String)
    (hq : config.Queries.get queryName = some query)
    (hdb : config.Databases.get dbName = some db)
    (ht : env.templateParse query.Message = true)
    (hn : (query.Parameters.map Parameter.Name).Nodup)
    (hf : env.flagsParse (flagSetName queryName dbName) (declaredFlags query.Parameters) args =
      .parsed value) :
    ((∃ p ∈ query.Parameters, value p.Name = "") →
      ∃ pre p post, query.Parameters = pre ++ p :: post ∧
        (∀ q ∈ pre, value q.Name ≠ "") ∧ value p.Name = "" ∧
        runCommand env warn crit config queryName dbName args =
          ⟨[.stderr ("parameter '" ++ p.Name ++ "' is empty")], .exited 1⟩ ∧
        ∀ driver dsn, Event.sqlOpen driver dsn ∉
          (runCommand env warn crit config queryName dbName args).events) ∧
    ((∀ p ∈ query.Parameters, value p.Name ≠ "") →
      bindParameters (query.Parameters.zip (query.Parameters.map fun p => value p.Name)) =
        .ok (query.Parameters.map fun p => { p with Value := value p.Name }) ∧
      runCommand env warn crit config queryName dbName args =
        runQuery env warn crit queryName dbName (query.bound value) db
          (query.Parameters.map fun p => value p.Name)) := by
  have hrun := runCommand_parsed env warn crit config queryName dbName args query db value
    hq hdb ht hn hf
  constructor
  · intro h
    obtain ⟨pre, p, post, hsplit, hpre, hp⟩ :=
      exists_first (fun p : Parameter => value p.Name = "") query.Parameters h
    have hout : runCommand env warn crit config queryName dbName args =
        ⟨[.stderr ("parameter '" ++ p.Name ++ "' is empty")], .exited 1⟩ := by
      rw [hrun, hsplit, bindParameters_error value pre p post hpre hp]
    refine ⟨pre, p, post, hsplit, hpre, hp, hout, ?_⟩
    intro driver dsn
    rw [hout]
    simp
  · intro h
    have hb := bindParameters_ok value query.Parameters h
    refine ⟨hb, ?_⟩
    rw [hrun, hb]
    rfl

/-- C6 at the example query: with `-a` unbound the run stops at parameter
`a`; with `-a foo` the value of `a` is set to `foo`. -/
theorem runCommand_parameters_witness :
    runCommand (demoEnv [] [] (fun _ => "") (.value 5)) 10 1 demoConfig "q" "db" [] =
      ⟨[.stderr "parameter 'a' is empty"], .exited 1⟩ ∧
    bindParameters (demoQuery.Parameters.zip (demoQuery.Parameters.map fun _ => "foo")) =
      .ok [⟨"a", "", "foo"⟩] := by
  have h1 := (runCommand_parameters (demoEnv [] [] (fun _ => "") (.value 5)) 10 1 demoConfig
    "q" "db" [] demoQuery demoDatabase (fun _ => "") rfl rfl rfl (by decide) rfl).1
    ⟨⟨"a", "", ""⟩, by decide, rfl⟩
  have h2 := (runCommand_parameters (demoEnv [] [] (fun _ => "foo") (.value 5)) 10 1 demoConfig
    "q" "db" ["-a", "foo"] demoQuery demoDatabase (fun _ => "foo") rfl rfl rfl (by decide)
    rfl).2 (by decide)
  refine ⟨?_, h2.1⟩
  obtain ⟨pre, p, post, hsplit, -, -, hout, -⟩ := h1
  have hp : p.Name = "a" := by
    have hmem : p ∈ demoQuery.Parameters := by rw [hsplit]; simp
    simp only [demoQuery, List.mem_singleton] at hmem
    rw [hmem]
  rw [hout, hp]
  rfl

/-- C7: when the scan yields `sql.ErrNoRows`, `runCommand` writes exactly
`no value returned by query` and a newline to standard output and exits with
code 1; the outcome is the same for all thresholds and for every template
engine, so neither the thresholds nor the rendering play a part. -/
theorem runCommand_no_rows {R : Type} [LinearOrder R] (env : Env R) (warn crit : R)
    (config : Config) (queryName dbName : String) (args : List String)
    (query : Query) (db : Database) (value : String → String)
    (hq : config.Queries.get queryName = some query)
    (hdb : config.Databases.get dbName = some db)
    (ht : env.templateParse query.Message = true)
    (hn : (query.Parameters.map Parameter.Name).Nodup)
    (hf : env.flagsParse (flagSetName queryName dbName) (declaredFlags query.Parameters) args =
      .parsed value)
    (hv : ∀ p ∈ query.Parameters, value p.Name ≠ "")
    (ho : env.sqlOpen db.Typ db.String = none)
    (hs : env.scan db.String query.Query (query.Parameters.map fun p => value p.Name) =
      .errNoRows) :
    (∀ (warn' crit' : R) (render : String → Vars R → String × Option String),
      runCommand { env with templateExecute := render } warn' crit' config queryName dbName args =
        ⟨[.sqlOpen db.Typ db.String,
          .queryRow query.Query (query.Parameters.map fun p => value p.Name),
          .stdout "no value returned by query\n"], .exited 1⟩) ∧
    stdoutText (runCommand env warn crit config queryName dbName args).events =
      "no value returned by query\n" ∧
    (runCommand env warn crit config queryName dbName args).status = .exited 1 := by
  have key : ∀ (warn' crit' : R) (render : String → Vars R → String × Option String),
      runCommand { env with templateExecute := render } warn' crit' config queryName dbName args =
        ⟨[.sqlOpen db.Typ db.String,
          .queryRow query.Query (query.Parameters.map fun p => value p.Name),
          .stdout "no value returned by query\n"], .exited 1⟩ := by
    intro warn' crit' render
    rw [runCommand_parsed { env with templateExecute := render } warn' crit' config queryName
      dbName args query db value hq hdb ht hn hf, bindParameters_ok value query.Parameters hv]
    simp only [runQuery, ho, hs, osExit]
    rfl
  have h0 := key warn crit env.templateExecute
  refine ⟨key, ?_, ?_⟩
  · rw [show ({ env with templateExecute := env.templateExecute } : Env R) = env from rfl] at h0
    rw [h0]
    simp [stdoutText]
  · rw [show ({ env with templateExecute := env.templateExecute } : Env R) = env from rfl] at h0
    rw [h0]

/-- C7 at the example query, run with `-a foo` against a database that
returns no row. -/
theorem runCommand_no_rows_witness :
    runCommand (demoEnv [] [] (fun _ => "foo") .errNoRows) 10 1 demoConfig "q" "db"
        ["-a", "foo"] =
      ⟨[.sqlOpen "postgres" " user=u host=h port=5432 dbname=d", .queryRow "SELECT x" ["foo"],
        .stdout "no value returned by query\n"], .exited 1⟩ :=
  ((runCommand_no_rows (demoEnv [] [] (fun _ => "foo") .errNoRows) 10 1 demoConfig "q" "db"
    ["-a", "foo"] demoQuery demoDatabase (fun _ => "foo") rfl rfl rfl (by decide) rfl
    (by decide) rfl rfl).1 10 1 (demoEnv [] [] (fun _ => "foo") .errNoRows).templateExecute).trans
    (by decide)

theorem runQuery_no_close {R : Type} [LinearOrder R] (env : Env R) (warn crit : R)
    (queryName dbName : String) (query : Query) (db : Database) (params : List String) :
    Event.connClose ∉ (runQuery env warn crit queryName dbName query db params).events := by
  unfold runQuery osExit
  repeat' split
  all_goals try (simp; done)
  dsimp only
  split <;> simp

/-- C8 fails on the code: the example run with `-a foo`, result 5, warn 10
and crit 1 opens the connection, runs the query, renders `5 is warning` and
exits with code 1, and `conn.Close()` is not among its events; and no run of
`runCommand` whatever ever contains `conn.Close()`, because every path ends
in `os.Exit`, which does not run the deferred call. -/
theorem runCommand_never_closes :
    runCommand (demoEnv [] [] (fun _ => "foo") (.value 5)) 10 1 demoConfig "q" "db"
        ["-a", "foo"] =
      ⟨[.sqlOpen "postgres" " user=u host=h port=5432 dbname=d", .queryRow "SELECT x" ["foo"],
        .stdout "5 is warning", .stdout "\n"], .exited 1⟩ ∧
    (∀ (R : Type) [LinearOrder R] (env : Env R) (warn crit : R) (config : Config)
      (queryName dbName : String) (args : List String),
      Event.connClose ∉ (runCommand env warn crit config queryName dbName args).events) := by
  refine ⟨by decide, ?_⟩
  intro R _ env warn crit config queryName dbName args
  unfold runCommand osExit goPanic
  repeat' split
  all_goals try (simp; done)
  dsimp only
  split
  · simp
  · exact runQuery_no_close _ _ _ _ _ _ _ _

/-! ## Failures of the configuration load -/

theorem mergeQueries_error (entryName : String) (qs acc : GoMap Query) (o : Outcome)
    (h : mergeQueries entryName qs acc = .error o) : IsConfigExit o := by
  induction qs generalizing acc with
  | nil => simp [mergeQueries] at h
  | cons e rest ih =>
    obtain ⟨k, v⟩ := e
    unfold mergeQueries at h
    split at h
    · injection h with h
      exact ⟨_, h.symm⟩
    · exact ih _ h

theorem mergeDatabases_error (entryName : String) (dbs acc : GoMap Database) (o : Outcome)
    (h : mergeDatabases entryName dbs acc = .error o) : IsConfigExit o := by
  induction dbs generalizing acc with
  | nil => simp [mergeDatabases] at h
  | cons e rest ih =>
    obtain ⟨k, v⟩ := e
    unfold mergeDatabases at h
    split at h
    · injection h with h
      exact ⟨_, h.symm⟩
    · exact ih _ h

theorem mergeFragment_error (entryName : String) (tmpConf config : Config) (o : Outcome)
    (h : mergeFragment entryName tmpConf config = .error o) : IsConfigExit o := by
  unfold mergeFragment at h
  split at h
  · rename_i o1 h1
    injection h with h
    exact h ▸ mergeQueries_error _ _ _ _ h1
  · split at h
    · rename_i o2 h2
      injection h with h
      exact h ▸ mergeDatabases_error _ _ _ _ h2
    · cases h

theorem mergeEntries_error {R : Type} (env : Env R) (includeDir : String)
    (entries : List String) (config : Config) (o : Outcome)
    (h : mergeEntries env includeDir entries config = .error o) : IsConfigExit o := by
  induction entries generalizing config with
  | nil => simp [mergeEntries] at h
  | cons entry rest ih =>
    unfold mergeEntries at h
    split at h
    · injection h with h
      exact ⟨_, h.symm⟩
    · injection h with h
      exact ⟨_, h.symm⟩
    · split at h
      · rename_i o1 h1
        injection h with h
        exact h ▸ mergeFragment_error _ _ _ _ h1
      · exact ih _ h

theorem postProcess_error (dbs : GoMap Database) (o : Outcome)
    (h : postProcess dbs = .error o) : IsConfigExit o := by
  rw [postProcess_eq] at h
  split at h
  · injection h with h
    exact ⟨_, h.symm⟩
  · cases h

theorem newConfig_error {R : Type} (env : Env R) (configPath : String) (o : Outcome)
    (h : newConfig env configPath = .error o) : IsConfigExit o := by
  unfold newConfig at h
  split at h
  · injection h with h
    exact ⟨_, h.symm⟩
  · injection h with h
    exact ⟨_, h.symm⟩
  · dsimp only at h
    split at h
    · rename_i o1 h1
      injection h with h
      subst h
      split at h1
      · split at h1
        · injection h1 with h1
          exact ⟨_, h1.symm⟩
        · exact mergeEntries_error _ _ _ _ _ h1
      · cases h1
    · split at h
      · rename_i o2 h2
        injection h with h
        exact h ▸ postProcess_error _ _ h2
      · cases h

/-! ## The command dispatcher -/

/-- C10 as stated fails: with no config file at the given path, `help` does
not print the usage text; the load error is printed and the exit code is 1. -/
theorem help_without_config :
    (demoEnv [] [] (fun _ => "") .errNoRows).flagParse ["help"] =
      .parsed ⟨"check_database.conf", 10, 1, ["help"]⟩ ∧
    (⟨"check_database.conf", 10, 1, ["help"]⟩ : CommandLine Int).arg 0 = "help" ∧
    main (demoEnv [] [] (fun _ => "") .errNoRows) ["help"] =
      ⟨[.stdout ("could not load main config file: " ++
          "open check_database.conf: no such file or directory\n")], .exited 1⟩ ∧
    main (demoEnv [] [] (fun _ => "") .errNoRows) ["help"] ≠ ⟨[.usage], .exited 0⟩ := by
  decide

/-- C10, amended: when `flag.Parse` returns and the command is `help` or
absent, the program prints the usage text and exits with code 0 if the
configuration loads, and ends as the load does, with one message on standard
output, exit code 1 and no usage text, if it does not; when `flag.Parse`
does not return, the command and the config file play no part: a flag error
prints the error and the usage text and exits with code 2, and `-h` or
`-help` prints the usage text and exits with code 0. -/
theorem main_help {R : Type} [LinearOrder R] (env : Env R) (osArgs : List String) :
    (∀ cl, env.flagParse osArgs = .parsed cl → (cl.arg 0 = "" ∨ cl.arg 0 = "help") →
      (∀ config, newConfig env cl.configPath = .ok config →
        main env osArgs = ⟨[.usage], .exited 0⟩) ∧
      (∀ o, newConfig env cl.configPath = .error o →
        main env osArgs = o ∧ ∃ msg, o = ⟨[.stdout msg], .exited 1⟩)) ∧
    (∀ message, env.flagParse osArgs = .failed message →
      main env osArgs = ⟨[.stderr message, .usage], .exited 2⟩) ∧
    (env.flagParse osArgs = .help → main env osArgs = ⟨[.usage], .exited 0⟩) := by
  refine ⟨fun cl hp h => ⟨?_, ?_⟩, ?_, ?_⟩
  · intro config hc
    unfold main
    rw [hp]
    simp only [hc, h, if_true, osExit]
  · intro o ho
    refine ⟨?_, newConfig_error env cl.configPath o ho⟩
    unfold main
    rw [hp]
    simp only [ho]
  · intro message hp
    unfold main
    rw [hp]
    rfl
  · intro hp
    unfold main
    rw [hp]
    rfl

/-- The amended C10 on four command lines: `help` with a config file (usage,
exit 0), `help` without one (load error, exit 1), `-bogus` (error and usage,
exit 2) and `-config /nonexistent -h` (usage, exit 0). -/
theorem main_help_witness :
    main (demoEnv [("check_database.conf", .ok demoConfig)] [] (fun _ => "") .errNoRows)
      ["help"] = ⟨[.usage], .exited 0⟩ ∧
    main (demoEnv [] [] (fun _ => "") .errNoRows) ["help"] =
      ⟨[.stdout ("could not load main config file: " ++
          "open check_database.conf: no such file or directory\n")], .exited 1⟩ ∧
    main (demoEnv [] [] (fun _ => "") .errNoRows) ["-bogus"] =
      ⟨[.stderr "flag provided but not defined: -bogus\n", .usage], .exited 2⟩ ∧
    main (demoEnv [] [] (fun _ => "") .errNoRows) ["-config", "/nonexistent", "-h"] =
      ⟨[.usage], .exited 0⟩ :=
  ⟨((main_help (demoEnv [("check_database.conf", .ok demoConfig)] [] (fun _ => "") .errNoRows)
      ["help"]).1 ⟨"check_database.conf", 10, 1, ["help"]⟩ rfl (Or.inr (by decide))).1
      demoConfig rfl,
   (((main_help (demoEnv [] [] (fun _ => "") .errNoRows) ["help"]).1
      ⟨"check_database.conf", 10, 1, ["help"]⟩ rfl (Or.inr (by decide))).2 _ rfl).1,
   (main_help (demoEnv [] [] (fun _ => "") .errNoRows) ["-bogus"]).2.1 _ rfl,
   (main_help (demoEnv [] [] (fun _ => "") .errNoRows) ["-config", "/nonexistent", "-h"]).2.2
     rfl⟩

/-! ## The listings -/

theorem stringLE_iff (a b : String) : stringLE a b ↔ a ≤ b := String.le_iff_toList_le.symm

theorem stringLE_total : IsTotal String stringLE := ⟨fun a b => by
  simp only [stringLE_iff]; exact le_total a b⟩

theorem stringLE_trans : IsTrans String stringLE := ⟨fun a b c => by
  simp only [stringLE_iff]; exact le_trans⟩

theorem stringLE_antisymm : IsAntisymm String stringLE := ⟨fun a b => by
  simp only [stringLE_iff]; exact le_antisymm⟩

theorem sortStrings_perm (l : List String) : (sortStrings l).Perm l :=
  List.perm_insertionSort stringLE l

theorem sortStrings_sorted_le (l : List String) : (sortStrings l).Sorted stringLE :=
  haveI := stringLE_total
  haveI := stringLE_trans
  List.sorted_insertionSort stringLE l

theorem sortStrings_sorted (l : List String) (h : l.Nodup) :
    (sortStrings l).Sorted (· < ·) := by
  have h1 : (sortStrings l).Sorted stringLE := sortStrings_sorted_le l
  have h2 : (sortStrings l).Sorted (· ≤ ·) := h1.imp fun hab => (stringLE_iff _ _).mp hab
  exact h2.lt_of_le ((sortStrings_perm l).nodup_iff.mpr h)

theorem sortStrings_congr (l l' : List String) (h : l'.Perm l) :
    sortStrings l' = sortStrings l :=
  haveI := stringLE_antisymm
  List.eq_of_perm_of_sorted (r := stringLE)
    (((sortStrings_perm l').trans h).trans (sortStrings_perm l).symm)
    (sortStrings_sorted_le l') (sortStrings_sorted_le l)

theorem get_eq_some_iff {V : Type} (m : GoMap V) (h : m.keys.Nodup) (k : String) (v : V) :
    m.get k = some v ↔ (k, v) ∈ m := by
  induction m with
  | nil => simp [GoMap.get]
  | cons e rest ih =>
    obtain ⟨k', v'⟩ := e
    have hnd : k' ∉ GoMap.keys rest ∧ (GoMap.keys rest).Nodup := by
      simpa [GoMap.keys] using h
    have ih := ih hnd.2
    unfold GoMap.get at ih ⊢
    by_cases hk : k = k'
    · subst hk
      have hnot : (k, v) ∉ rest := fun hmem => hnd.1 (List.mem_map_of_mem Prod.fst hmem)
      simp [List.lookup, hnot]
      exact eq_comm
    · have hbeq : (k == k') = false := by simpa using hk
      simp [List.lookup, hbeq, ih, hk]

theorem get_congr {V : Type} (m m' : GoMap V) (h : m.keys.Nodup) (hp : m'.Perm m) (k : String) :
    m'.get k = m.get k := by
  have h' : m'.keys.Nodup := (hp.map Prod.fst).nodup_iff.mpr h
  ext v
  simp only [Option.mem_def]
  rw [get_eq_some_iff m h, get_eq_some_iff m' h']
  exact hp.mem_iff

theorem get_isSome_of_mem {V : Type} (m : GoMap V) (k : String) (h : k ∈ m.keys) :
    ∃ v, m.get k = some v := by
  have : (m.lookup k).isSome := by
    rw [List.lookup_isSome_iff]
    obtain ⟨e, he, hk⟩ := List.mem_map.mp h
    exact ⟨e, he, by simp [hk]⟩
  exact Option.isSome_iff_exists.mp this

theorem databaseRows_congr (databases databases' : GoMap Database)
    (h : ∀ k, databases'.get k = databases.get k) (names : List String) :
    databaseRows databases' names = databaseRows databases names := by
  induction names with
  | nil => rfl
  | cons n rest ih =>
    unfold databaseRows
    rw [h n, ih]

/-! ### The text cut into lines and cells -/

theorem splitWhere_append (p : Char → Bool) (a : List Char) (sep : Char) (rest : List Char)
    (ha : ∀ c ∈ a, p c = false) (hs : p sep = true) :
    splitWhere p (a ++ sep :: rest) = a :: splitWhere p rest := by
  induction a with
  | nil => simp [splitWhere, hs]
  | cons c cs ih =>
    have hc : p c = false := ha c (List.mem_cons_self _ _)
    have ih := ih fun d hd => ha d (List.mem_cons_of_mem _ hd)
    show splitWhere p (c :: (cs ++ sep :: rest)) = (c :: cs) :: splitWhere p rest
    rw [splitWhere, if_neg (by simp [hc]), ih]

theorem splitWhere_lines (contents : List (List Char))
    (h : ∀ l ∈ contents, ∀ c ∈ l, isLineBreak c = false) :
    splitWhere isLineBreak (contents.flatMap fun l => l ++ [Char.ofNat 10]) =
      contents ++ [[]] := by
  induction contents with
  | nil => rfl
  | cons l ls ih =>
    have ih := ih fun m hm => h m (List.mem_cons_of_mem _ hm)
    simp only [List.flatMap_cons, List.append_assoc, List.singleton_append, List.cons_append]
    rw [splitWhere_append isLineBreak l _ _ (h l (List.mem_cons_self _ _)) (by decide),
      List.nil_append, ih]

theorem tableRows_lines (writes : List String) (contents : List (List Char))
    (hw : writes.map String.toList = contents.map fun l => l ++ [Char.ofNat 10])
    (h : ∀ l ∈ contents, ∀ c ∈ l, isLineBreak c = false) :
    tableRows writes = contents.map fun line => (splitWhere isCellEnd line).map String.mk := by
  have hflat : writes.flatMap String.toList =
      contents.flatMap fun l => l ++ [Char.ofNat 10] := by
    rw [List.flatMap_def, hw, ← List.flatMap_def]
  unfold tableRows
  rw [hflat, splitWhere_lines contents h]
  simp

theorem intercalate_go_mem (sep : String) (l : List String) (acc : String) (c : Char)
    (h : c ∈ (String.intercalate.go acc sep l).toList) :
    c ∈ acc.toList ∨ c ∈ sep.toList ∨ ∃ s ∈ l, c ∈ s.toList := by
  induction l generalizing acc with
  | nil => exact Or.inl h
  | cons s rest ih =>
    rcases ih (acc ++ sep ++ s) h with h1 | h1 | ⟨t, ht, hc⟩
    · simp only [String.toList, String.data_append, List.mem_append] at h1
      rcases h1 with (h1 | h1) | h1
      · exact Or.inl h1
      · exact Or.inr (Or.inl h1)
      · exact Or.inr (Or.inr ⟨s, List.mem_cons_self _ _, h1⟩)
    · exact Or.inr (Or.inl h1)
    · exact Or.inr (Or.inr ⟨t, List.mem_cons_of_mem _ ht, hc⟩)

theorem intercalate_noLineBreak (l : List String) (h : ∀ s ∈ l, NoLineBreak s) :
    NoLineBreak (", ".intercalate l) := by
  intro c hc
  cases l with
  | nil => simp [String.intercalate] at hc
  | cons s rest =>
    rcases intercalate_go_mem ", " rest s c hc with h1 | h1 | ⟨t, ht, h1⟩
    · exact h s (List.mem_cons_self _ _) c h1
    · have : ∀ d ∈ (", " : String).toList, isLineBreak d = false := by decide
      exact this c h1
    · exact h t (List.mem_cons_of_mem _ ht) c h1

theorem toDigitsCore_noLineBreak (fuel n : Nat) (ds : List Char)
    (h : ∀ c ∈ ds, isLineBreak c = false) :
    ∀ c ∈ Nat.toDigitsCore 10 fuel n ds, isLineBreak c = false := by
  have hdigit : ∀ k, k < 10 → isLineBreak (Nat.digitChar k) = false := by decide
  induction fuel generalizing n ds with
  | zero => simpa [Nat.toDigitsCore] using h
  | succ fuel ih =>
    have hds : ∀ c ∈ Nat.digitChar (n % 10) :: ds, isLineBreak c = false := by
      intro c hc
      rcases List.mem_cons.mp hc with rfl | hc
      · exact hdigit _ (Nat.mod_lt _ (by decide))
      · exact h c hc
    unfold Nat.toDigitsCore
    by_cases hn : n / 10 = 0
    · simpa [hn] using hds
    · simp only [hn, if_false]
      exact ih _ _ hds

theorem fmtInt_noLineBreak (n : Int) : NoLineBreak (fmtInt n) := by
  have hnat : ∀ m : Nat, ∀ c ∈ (Nat.repr m).toList, isLineBreak c = false := fun m =>
    toDigitsCore_noLineBreak (m + 1) m [] (by simp)
  intro c hc
  cases n with
  | ofNat m => exact hnat m c hc
  | negSucc m =>
    have hc' : c ∈ ("-" : String).toList ++ (Nat.repr (m + 1)).toList := hc
    rcases List.mem_append.mp hc' with h1 | h1
    · have : ∀ d ∈ ("-" : String).toList, isLineBreak d = false := by decide
      exact this c h1
    · exact hnat _ c h1

theorem mem_append_string (a b : String) (c : Char) :
    c ∈ (a ++ b).toList ↔ c ∈ a.toList ∨ c ∈ b.toList := by
  simp [String.toList, String.data_append]

theorem queryLine_toList (name : String) (q : Query) :
    (queryLine name q).toList = queryContent name q ++ [Char.ofNat 10] := by
  have ht : ("\t" : String).data = [Char.ofNat 9] := rfl
  have hn : ("\n" : String).data = [Char.ofNat 10] := rfl
  simp [queryLine, queryContent, String.toList, String.data_append, ht, hn]

theorem databaseLine_toList (name : String) (db : Database) :
    (databaseLine name db).toList = databaseContent name db ++ [Char.ofNat 10] := by
  have ht : ("\t" : String).data = [Char.ofNat 9] := rfl
  have hn : ("\n" : String).data = [Char.ofNat 10] := rfl
  simp [databaseLine, databaseContent, String.toList, String.data_append, ht, hn]

theorem queryContent_noLineBreak (name : String) (q : Query) (h : PlainQuery name q) :
    ∀ c ∈ queryContent name q, isLineBreak c = false := by
  obtain ⟨-, hname, hparams, hdoc⟩ := h
  have hjoin := intercalate_noLineBreak (sortStrings (q.Parameters.map Parameter.Name))
    (by
      intro s hs
      obtain ⟨p, hp, rfl⟩ := List.mem_map.mp ((sortStrings_perm _).subset hs)
      exact hparams p hp)
  intro c hc
  simp only [queryContent, List.mem_append, List.mem_cons] at hc
  rcases hc with h1 | rfl | h1 | rfl | h1
  · exact hname c h1
  · decide
  · exact hjoin c h1
  · decide
  · exact hdoc c h1

theorem databaseContent_noLineBreak (name : String) (db : Database)
    (h : PlainDatabase name db) :
    ∀ c ∈ databaseContent name db, isLineBreak c = false := by
  obtain ⟨-, hname, -, htyp, hhost, hdatabase, huser⟩ := h
  have hcolon : ∀ d ∈ (":" : String).toList, isLineBreak d = false := by decide
  have htab : ∀ d ∈ ("\t" : String).toList, isLineBreak d = false := by decide
  intro c hc
  simp only [databaseContent, List.mem_append, List.mem_cons, mem_append_string] at hc
  rcases hc with h1 | rfl | h1 | rfl | (((((h1 | h1) | h1) | h1) | h1) | h1) | h1
  · exact htyp c h1
  · decide
  · exact hname c h1
  · decide
  · exact hhost c h1
  · exact hcolon c h1
  · exact fmtInt_noLineBreak db.Port c h1
  · exact htab c h1
  · exact hdatabase c h1
  · exact htab c h1
  · exact huser c h1

theorem mk_toList (s : String) : String.mk s.toList = s := rfl

theorem queryContent_name (name : String) (q : Query) (h : NoCellEnd name) :
    (lineCells (queryContent name q)).getD 0 "" = name := by
  unfold lineCells queryContent
  rw [splitWhere_append isCellEnd name.toList _ _ h (by decide)]
  simp [mk_toList]

theorem databaseContent_name (name : String) (db : Database) (hn : NoCellEnd name)
    (ht : NoCellEnd db.Typ) :
    (lineCells (databaseContent name db)).getD 1 "" = name := by
  unfold lineCells databaseContent
  rw [splitWhere_append isCellEnd db.Typ.toList _ _ ht (by decide),
    splitWhere_append isCellEnd name.toList _ _ hn (by decide)]
  simp [mk_toList]

theorem databaseRows_spec (databases : GoMap Database) (names : List String)
    (h : ∀ n ∈ names, n ∈ databases.keys) :
    databaseRows databases names =
      some (names.map fun n => databaseLine n (databaseAt databases n)) := by
  induction names with
  | nil => rfl
  | cons n rest ih =>
    obtain ⟨db, hdb⟩ := get_isSome_of_mem databases n (h n (List.mem_cons_self _ _))
    unfold databaseRows
    rw [hdb, ih fun m hm => h m (List.mem_cons_of_mem _ hm)]
    simp [databaseAt, hdb]

theorem plain_queryAt (queries : GoMap Query) (hq : queries.keys.Nodup)
    (hqs : ∀ e ∈ queries, PlainQuery e.1 e.2) (name : String) (h : name ∈ queries.keys) :
    PlainQuery name (queryAt queries name) := by
  obtain ⟨q, hget⟩ := get_isSome_of_mem queries name h
  have hmem := (get_eq_some_iff queries hq name q).mp hget
  have := hqs (name, q) hmem
  simpa [queryAt, hget] using this

theorem plain_databaseAt (databases : GoMap Database) (hd : databases.keys.Nodup)
    (hdbs : ∀ e ∈ databases, PlainDatabase e.1 e.2) (name : String)
    (h : name ∈ databases.keys) :
    PlainDatabase name (databaseAt databases name) := by
  obtain ⟨db, hget⟩ := get_isSome_of_mem databases name h
  have hmem := (get_eq_some_iff databases hd name db).mp hget
  have := hdbs (name, db) hmem
  simpa [databaseAt, hget] using this

theorem queries_table (queries : GoMap Query) (hq : queries.keys.Nodup)
    (hqs : ∀ e ∈ queries, PlainQuery e.1 e.2) (includeDir : String)
    (databases : GoMap Database) :
    ∃ rows, tableRows (listQueries ⟨includeDir, queries, databases⟩) =
        ["name", "parameters", "description"] :: rows ∧
      queryNames rows = sortStrings queries.keys := by
  have hplain : ∀ n ∈ sortStrings queries.keys, PlainQuery n (queryAt queries n) :=
    fun n hn => plain_queryAt queries hq hqs n ((sortStrings_perm _).subset hn)
  have hrows := tableRows_lines (listQueries ⟨includeDir, queries, databases⟩)
    ("name\tparameters\tdescription".toList ::
      (sortStrings queries.keys).map fun n => queryContent n (queryAt queries n))
    (by
      simp only [listQueries, List.map_cons, List.map_map, Function.comp_def, queryLine_toList,
        queryAt]
      rfl)
    (by
      intro l hl
      rcases List.mem_cons.mp hl with rfl | hl
      · decide
      · obtain ⟨n, hn, rfl⟩ := List.mem_map.mp hl
        exact queryContent_noLineBreak n _ (hplain n hn))
  refine ⟨((sortStrings queries.keys).map fun n => queryContent n (queryAt queries n)).map
    lineCells, ?_, ?_⟩
  · rw [hrows]
    rfl
  · simp only [queryNames, List.map_map, Function.comp_def]
    conv_rhs => rw [← List.map_id (sortStrings queries.keys)]
    exact List.map_congr_left fun n hn => queryContent_name n _ (hplain n hn).1

theorem databases_table (databases : GoMap Database) (hd : databases.keys.Nodup)
    (hdbs : ∀ e ∈ databases, PlainDatabase e.1 e.2) (includeDir : String)
    (queries : GoMap Query) :
    ∃ writes rows, listDatabases ⟨includeDir, queries, databases⟩ = some writes ∧
      tableRows writes = ["type", "name", "hostname", "database", "user"] :: rows ∧
      databaseNames rows = sortStrings databases.keys := by
  have hplain : ∀ n ∈ sortStrings databases.keys, PlainDatabase n (databaseAt databases n) :=
    fun n hn => plain_databaseAt databases hd hdbs n ((sortStrings_perm _).subset hn)
  have hlist : listDatabases ⟨includeDir, queries, databases⟩ =
      some ("type\tname\thostname\tdatabase\tuser\n" ::
        (sortStrings databases.keys).map fun n => databaseLine n (databaseAt databases n)) := by
    unfold listDatabases
    simp only [databaseRows_spec databases (sortStrings databases.keys)
      fun n hn => (sortStrings_perm _).subset hn]
  have hrows := tableRows_lines
    ("type\tname\thostname\tdatabase\tuser\n" ::
      (sortStrings databases.keys).map fun n => databaseLine n (databaseAt databases n))
    ("type\tname\thostname\tdatabase\tuser".toList ::
      (sortStrings databases.keys).map fun n => databaseContent n (databaseAt databases n))
    (by
      simp only [List.map_cons, List.map_map, Function.comp_def, databaseLine_toList]
      rfl)
    (by
      intro l hl
      rcases List.mem_cons.mp hl with rfl | hl
      · decide
      · obtain ⟨n, hn, rfl⟩ := List.mem_map.mp hl
        exact databaseContent_noLineBreak n _ (hplain n hn))
  refine ⟨_, ((sortStrings databases.keys).map fun n =>
    databaseContent n (databaseAt databases n)).map lineCells, hlist, ?_, ?_⟩
  · rw [hrows]
    rfl
  · simp only [databaseNames, List.map_map, Function.comp_def]
    conv_rhs => rw [← List.map_id (sortStrings databases.keys)]
    exact List.map_congr_left fun n hn =>
      databaseContent_name n _ (hplain n hn).1 (hplain n hn).2.2.1

/-- C9 as stated fails: with the two queries `q` and `r`, the description of
`q` holding a newline, `list queries` prints three rows after the header, and
their first column `q`, `b`, `r` is not increasing. -/
theorem list_queries_newline :
    newlineConfig.Queries.keys.Nodup ∧ newlineConfig.Queries.length = 2 ∧
    tableRows (listQueries newlineConfig) =
      [["name", "parameters", "description"], ["q", "", "a"], ["b"], ["r", "", ""]] ∧
    queryNames [["q", "", "a"], ["b"], ["r", "", ""]] = ["q", "b", "r"] ∧
    ¬ (["q", "b", "r"] : List String).Sorted (· < ·) := by
  refine ⟨by decide, by decide, by decide, by decide, ?_⟩
  intro h
  have h1 : ("q" : String) < "b" := List.rel_of_sorted_cons h "b" (by simp)
  rw [String.lt_iff_toList_lt] at h1
  revert h1
  decide

/-- C9, amended: for a config whose maps have distinct keys and in which no
printed field holds a line break (newline or formfeed) and no name, and no
type of a database, holds a cell terminator (horizontal or vertical tab),
`list databases` prints the header and then one row per database, `list
queries` the header and then one row per query; the name column of the rows
is a rearrangement of the keys of the map and is strictly increasing; these
strings are what `main` hands to the tabwriter; and a config whose maps hold
the same entries in another iteration order writes the same strings. -/
theorem list_sorted (config : Config) (hdb : config.Databases.keys.Nodup)
    (hq : config.Queries.keys.Nodup)
    (hdbs : ∀ e ∈ config.Databases, PlainDatabase e.1 e.2)
    (hqs : ∀ e ∈ config.Queries, PlainQuery e.1 e.2) :
    (∃ writes rows, listDatabases config = some writes ∧
      tableRows writes = ["type", "name", "hostname", "database", "user"] :: rows ∧
      rows.length = config.Databases.length ∧
      (databaseNames rows).Perm config.Databases.keys ∧
      (databaseNames rows).Sorted (· < ·) ∧
      ∀ (R : Type) [LinearOrder R] (env : Env R) (osArgs : List String) (cl : CommandLine R),
        env.flagParse osArgs = .parsed cl → newConfig env cl.configPath = .ok config →
        cl.arg 0 = "list" → cl.arg 1 = "databases" →
        main env osArgs = ⟨[.table writes], .returned⟩) ∧
    (∃ rows, tableRows (listQueries config) = ["name", "parameters", "description"] :: rows ∧
      rows.length = config.Queries.length ∧
      (queryNames rows).Perm config.Queries.keys ∧
      (queryNames rows).Sorted (· < ·) ∧
      ∀ (R : Type) [LinearOrder R] (env : Env R) (osArgs : List String) (cl : CommandLine R),
        env.flagParse osArgs = .parsed cl → newConfig env cl.configPath = .ok config →
        cl.arg 0 = "list" → cl.arg 1 = "queries" →
        main env osArgs = ⟨[.table (listQueries config)], .returned⟩) ∧
    (∀ config' : Config, config'.Databases.Perm config.Databases →
      config'.Queries.Perm config.Queries →
      listDatabases config' = listDatabases config ∧ listQueries config' = listQueries config) := by
  have e1 : ¬ (("list" : String) = "" ∨ ("list" : String) = "help") := by decide
  have e2 : ("list" : String) ≠ "run" := by decide
  have e3 : ("queries" : String) ≠ "databases" := by decide
  refine ⟨?_, ?_, ?_⟩
  · obtain ⟨writes, rows, hlist, hrows, hnames⟩ :=
      databases_table config.Databases hdb hdbs config.IncludeDir config.Queries
    refine ⟨writes, rows, hlist, hrows, ?_, ?_, ?_, ?_⟩
    · have hlen : (databaseNames rows).length = (sortStrings config.Databases.keys).length := by
        rw [hnames]
      simpa [databaseNames, GoMap.keys, (sortStrings_perm _).length_eq] using hlen
    · rw [hnames]
      exact sortStrings_perm _
    · rw [hnames]
      exact sortStrings_sorted _ hdb
    · intro R _ env osArgs cl hp hc h0 h1
      have hlist' : listDatabases config = some writes := hlist
      unfold main
      rw [hp]
      simp only [hc, h0, h1, hlist', goReturn, List.append_nil, e1, e2, if_true, if_false, ne_eq,
        not_false_eq_true]
  · obtain ⟨rows, hrows, hnames⟩ :=
      queries_table config.Queries hq hqs config.IncludeDir config.Databases
    refine ⟨rows, hrows, ?_, ?_, ?_, ?_⟩
    · have hlen : (queryNames rows).length = (sortStrings config.Queries.keys).length := by
        rw [hnames]
      simpa [queryNames, GoMap.keys, (sortStrings_perm _).length_eq] using hlen
    · rw [hnames]
      exact sortStrings_perm _
    · rw [hnames]
      exact sortStrings_sorted _ hq
    · intro R _ env osArgs cl hp hc h0 h1
      unfold main
      rw [hp]
      simp only [hc, h0, h1, goReturn, List.append_nil, e1, e2, e3, if_true, if_false, ne_eq,
        not_false_eq_true]
  · intro config' hpd hpq
    have hkd : sortStrings config'.Databases.keys = sortStrings config.Databases.keys :=
      sortStrings_congr _ _ (hpd.map Prod.fst)
    have hkq : sortStrings config'.Queries.keys = sortStrings config.Queries.keys :=
      sortStrings_congr _ _ (hpq.map Prod.fst)
    constructor
    · unfold listDatabases
      simp only [hkd]
      rw [databaseRows_congr config.Databases config'.Databases
        (get_congr config.Databases config'.Databases hdb hpd)]
    · unfold listQueries
      simp only [hkq]
      congr 1
      apply List.map_congr_left
      intro name _
      rw [get_congr config.Queries config'.Queries hq hpq name]

/-- The amended C9 on a config with two databases and two queries stored in
decreasing order of their names. -/
theorem list_sorted_witness :
    (∃ rows, tableRows (listQueries listConfig) =
        ["name", "parameters", "description"] :: rows ∧
      rows.length = 2 ∧ (queryNames rows).Sorted (· < ·)) ∧
    tableRows (listQueries listConfig) =
      [["name", "parameters", "description"], ["q1", "a", ""], ["q2", "a", ""]] ∧
    (listDatabases listConfig).map tableRows =
      some [["type", "name", "hostname", "database", "user"],
        ["postgres", "db1", "h:5432", "d", "u"], ["postgres", "db2", "h:5432", "d", "u"]] := by
  have h := list_sorted listConfig (by decide) (by decide) (by decide) (by decide)
  obtain ⟨-, ⟨rows, hrows, hlen, -, hsorted, -⟩, -⟩ := h
  exact ⟨⟨rows, hrows, hlen, hsorted⟩, by decide, by decide⟩

/-! ## Merging the fragments -/

theorem found_iff {V : Type} (m : GoMap V) (k : String) : m.found k = true ↔ k ∈ m.keys := by
  unfold GoMap.found GoMap.keys
  rw [List.lookup_isSome_iff, List.mem_map]
  constructor
  · rintro ⟨e, he, hk⟩
    exact ⟨e, he, (beq_iff_eq.mp hk).symm⟩
  · rintro ⟨e, he, hk⟩
    exact ⟨e, he, by simp [hk]⟩

theorem keys_set {V : Type} (m : GoMap V) (k : String) (v : V) :
    (m.set k v).keys = m.keys ++ [k] := by
  simp [GoMap.set, GoMap.keys]

theorem mergeQueries_ok (entryName : String) (qs acc : GoMap Query)
    (h : ∀ k ∈ qs.keys, k ∉ acc.keys) (hnd : qs.keys.Nodup) :
    mergeQueries entryName qs acc = .ok (acc ++ qs) := by
  induction qs generalizing acc with
  | nil => simp [mergeQueries]
  | cons e rest ih =>
    obtain ⟨k, v⟩ := e
    have hk : k ∉ acc.keys := h k (by simp [GoMap.keys])
    have hnd' : k ∉ GoMap.keys rest ∧ (GoMap.keys rest).Nodup := by
      simpa [GoMap.keys] using hnd
    have hf : acc.found k = false := by
      rw [← Bool.not_eq_true, found_iff]
      exact hk
    unfold mergeQueries
    rw [hf]
    simp only [Bool.false_eq_true, if_false]
    rw [ih (acc.set k v) _ hnd'.2]
    · simp [GoMap.set]
    · intro k' hk' hmem
      rw [keys_set] at hmem
      rcases List.mem_append.mp hmem with hmem | hmem
      · exact h k' (by simp [GoMap.keys] at hk' ⊢; exact Or.inr hk') hmem
      · rw [List.mem_singleton] at hmem
        exact hnd'.1 (hmem ▸ hk')

theorem mergeQueries_dup (entryName : String) (qs acc : GoMap Query)
    (hnd : qs.keys.Nodup) (h : ∃ k ∈ qs.keys, k ∈ acc.keys) :
    ∃ k, k ∈ qs.keys ∧ k ∈ acc.keys ∧
      mergeQueries entryName qs acc = .error (duplicateQueryExit k entryName) := by
  induction qs generalizing acc with
  | nil => simp [GoMap.keys] at h
  | cons e rest ih =>
    obtain ⟨k, v⟩ := e
    have hnd' : k ∉ GoMap.keys rest ∧ (GoMap.keys rest).Nodup := by
      simpa [GoMap.keys] using hnd
    by_cases hk : k ∈ acc.keys
    · refine ⟨k, by simp [GoMap.keys], hk, ?_⟩
      unfold mergeQueries
      rw [(found_iff acc k).mpr hk]
      rfl
    · have hf : acc.found k = false := by
        rw [← Bool.not_eq_true, found_iff]
        exact hk
      obtain ⟨k', hk', hacc'⟩ := h
      have hk'rest : k' ∈ GoMap.keys rest := by
        have : k' = k ∨ k' ∈ GoMap.keys rest := by simpa [GoMap.keys] using hk'
        rcases this with rfl | h'
        · exact absurd hacc' hk
        · exact h'
      obtain ⟨k'', hk''rest, hk''acc, hres⟩ := ih (acc.set k v) hnd'.2
        ⟨k', hk'rest, by rw [keys_set]; exact List.mem_append_left _ hacc'⟩
      refine ⟨k'', by simp [GoMap.keys] at hk''rest ⊢; exact Or.inr hk''rest, ?_, ?_⟩
      · rw [keys_set] at hk''acc
        rcases List.mem_append.mp hk''acc with hmem | hmem
        · exact hmem
        · rw [List.mem_singleton] at hmem
          exact absurd (hmem ▸ hk''rest) hnd'.1
      · unfold mergeQueries
        rw [hf]
        simp only [Bool.false_eq_true, if_false]
        exact hres

theorem mergeDatabases_ok (entryName : String) (dbs acc : GoMap Database)
    (h : ∀ k ∈ dbs.keys, k ∉ acc.keys) (hnd : dbs.keys.Nodup) :
    mergeDatabases entryName dbs acc = .ok (acc ++ dbs) := by
  induction dbs generalizing acc with
  | nil => simp [mergeDatabases]
  | cons e rest ih =>
    obtain ⟨k, v⟩ := e
    have hk : k ∉ acc.keys := h k (by simp [GoMap.keys])
    have hnd' : k ∉ GoMap.keys rest ∧ (GoMap.keys rest).Nodup := by
      simpa [GoMap.keys] using hnd
    have hf : acc.found k = false := by
      rw [← Bool.not_eq_true, found_iff]
      exact hk
    unfold mergeDatabases
    rw [hf]
    simp only [Bool.false_eq_true, if_false]
    rw [ih (acc.set k v) _ hnd'.2]
    · simp [GoMap.set]
    · intro k' hk' hmem
      rw [keys_set] at hmem
      rcases List.mem_append.mp hmem with hmem | hmem
      · exact h k' (by simp [GoMap.keys] at hk' ⊢; exact Or.inr hk') hmem
      · rw [List.mem_singleton] at hmem
        exact hnd'.1 (hmem ▸ hk')

theorem mergeDatabases_dup (entryName : String) (dbs acc : GoMap Database)
    (hnd : dbs.keys.Nodup) (h : ∃ k ∈ dbs.keys, k ∈ acc.keys) :
    ∃ k, k ∈ dbs.keys ∧ k ∈ acc.keys ∧
      mergeDatabases entryName dbs acc = .error (duplicateDatabaseExit k entryName) := by
  induction dbs generalizing acc with
  | nil => simp [GoMap.keys] at h
  | cons e rest ih =>
    obtain ⟨k, v⟩ := e
    have hnd' : k ∉ GoMap.keys rest ∧ (GoMap.keys rest).Nodup := by
      simpa [GoMap.keys] using hnd
    by_cases hk : k ∈ acc.keys
    · refine ⟨k, by simp [GoMap.keys], hk, ?_⟩
      unfold mergeDatabases
      rw [(found_iff acc k).mpr hk]
      rfl
    · have hf : acc.found k = false := by
        rw [← Bool.not_eq_true, found_iff]
        exact hk
      obtain ⟨k', hk', hacc'⟩ := h
      have hk'rest : k' ∈ GoMap.keys rest := by
        have : k' = k ∨ k' ∈ GoMap.keys rest := by simpa [GoMap.keys] using hk'
        rcases this with rfl | h'
        · exact absurd hacc' hk
        · exact h'
      obtain ⟨k'', hk''rest, hk''acc, hres⟩ := ih (acc.set k v) hnd'.2
        ⟨k', hk'rest, by rw [keys_set]; exact List.mem_append_left _ hacc'⟩
      refine ⟨k'', by simp [GoMap.keys] at hk''rest ⊢; exact Or.inr hk''rest, ?_, ?_⟩
      · rw [keys_set] at hk''acc
        rcases List.mem_append.mp hk''acc with hmem | hmem
        · exact hmem
        · rw [List.mem_singleton] at hmem
          exact absurd (hmem ▸ hk''rest) hnd'.1
      · unfold mergeDatabases
        rw [hf]
        simp only [Bool.false_eq_true, if_false]
        exact hres

theorem merged_nil (main : Config) : merged main [] = main := by
  cases main
  simp [merged]

theorem merged_cons (main : Config) (f : String × Config) (l : List (String × Config)) :
    merged main (f :: l) = merged (merged main [f]) l := by
  simp [merged, List.append_assoc]

theorem mergeFragment_ok (entryName : String) (tmpConf config : Config)
    (hq : tmpConf.Queries.keys.Nodup) (hd : tmpConf.Databases.keys.Nodup)
    (h : ¬ Collides config tmpConf) :
    mergeFragment entryName tmpConf config = .ok (merged config [(entryName, tmpConf)]) := by
  have h1 : ∀ k ∈ tmpConf.Queries.keys, k ∉ config.Queries.keys :=
    fun k hk hmem => h (Or.inl ⟨k, hk, hmem⟩)
  have h2 : ∀ k ∈ tmpConf.Databases.keys, k ∉ config.Databases.keys :=
    fun k hk hmem => h (Or.inr ⟨k, hk, hmem⟩)
  unfold mergeFragment
  rw [mergeQueries_ok _ _ _ h1 hq, mergeDatabases_ok _ _ _ h2 hd]
  simp [merged]

theorem mergeFragment_dup (entryName : String) (tmpConf config : Config)
    (hq : tmpConf.Queries.keys.Nodup) (hd : tmpConf.Databases.keys.Nodup)
    (h : Collides config tmpConf) :
    ∃ k,
      (k ∈ tmpConf.Queries.keys ∧ k ∈ config.Queries.keys ∧
        mergeFragment entryName tmpConf config = .error (duplicateQueryExit k entryName)) ∨
      (k ∈ tmpConf.Databases.keys ∧ k ∈ config.Databases.keys ∧
        mergeFragment entryName tmpConf config = .error (duplicateDatabaseExit k entryName)) := by
  by_cases hcq : ∃ k ∈ tmpConf.Queries.keys, k ∈ config.Queries.keys
  · obtain ⟨k, hk1, hk2, hres⟩ := mergeQueries_dup entryName _ _ hq hcq
    refine ⟨k, Or.inl ⟨hk1, hk2, ?_⟩⟩
    unfold mergeFragment
    rw [hres]
  · have hcd : ∃ k ∈ tmpConf.Databases.keys, k ∈ config.Databases.keys := h.resolve_left hcq
    have h1 : ∀ k ∈ tmpConf.Queries.keys, k ∉ config.Queries.keys :=
      fun k hk hmem => hcq ⟨k, hk, hmem⟩
    obtain ⟨k, hk1, hk2, hres⟩ := mergeDatabases_dup entryName _ _ hd hcd
    refine ⟨k, Or.inr ⟨hk1, hk2, ?_⟩⟩
    unfold mergeFragment
    rw [mergeQueries_ok _ _ _ h1 hq, hres]

theorem noCollision_cons (main : Config) (f : String × Config) (l : List (String × Config)) :
    NoCollision main (f :: l) ↔ ¬ Collides main f.2 ∧ NoCollision (merged main [f]) l := by
  constructor
  · intro h
    refine ⟨?_, ?_⟩
    · have := h [] f l rfl
      rwa [merged_nil] at this
    · intro pre g post hsplit
      have := h (f :: pre) g post (by rw [hsplit]; rfl)
      rwa [merged_cons] at this
  · rintro ⟨h1, h2⟩ pre g post hsplit
    cases pre with
    | nil =>
      simp only [List.nil_append, List.cons.injEq] at hsplit
      rw [merged_nil, ← hsplit.1]
      exact h1
    | cons p pre =>
      simp only [List.cons_append, List.cons.injEq] at hsplit
      rw [merged_cons, ← hsplit.1]
      exact h2 pre g post hsplit.2

theorem mergeEntries_ok {R : Type} (env : Env R) (includeDir : String)
    (frags : List (String × Config)) (main : Config)
    (hload : ∀ f ∈ frags, env.loadFile (env.pathJoin includeDir f.1) = .ok f.2)
    (hnd : ∀ f ∈ frags, f.2.Queries.keys.Nodup ∧ f.2.Databases.keys.Nodup)
    (h : NoCollision main frags) :
    mergeEntries env includeDir (frags.map Prod.fst) main = .ok (merged main frags) := by
  induction frags generalizing main with
  | nil => simp [mergeEntries, merged_nil]
  | cons f rest ih =>
    obtain ⟨h1, h2⟩ := (noCollision_cons main f rest).mp h
    have hf := hnd f (List.mem_cons_self _ _)
    simp only [List.map_cons]
    unfold mergeEntries
    rw [hload f (List.mem_cons_self _ _)]
    simp only
    rw [mergeFragment_ok f.1 f.2 main hf.1 hf.2 h1]
    simp only
    rw [ih (merged main [f]) (fun g hg => hload g (List.mem_cons_of_mem _ hg))
      (fun g hg => hnd g (List.mem_cons_of_mem _ hg)) h2, ← merged_cons]

theorem mergeEntries_dup {R : Type} (env : Env R) (includeDir : String)
    (pre : List (String × Config)) (f : String × Config) (post : List (String × Config))
    (main : Config)
    (hload : ∀ g ∈ pre ++ f :: post, env.loadFile (env.pathJoin includeDir g.1) = .ok g.2)
    (hnd : ∀ g ∈ pre ++ f :: post, g.2.Queries.keys.Nodup ∧ g.2.Databases.keys.Nodup)
    (hpre : NoCollision main pre) (hf : Collides (merged main pre) f.2) :
    ∃ k,
      (k ∈ f.2.Queries.keys ∧ k ∈ (merged main pre).Queries.keys ∧
        mergeEntries env includeDir ((pre ++ f :: post).map Prod.fst) main =
          .error (duplicateQueryExit k f.1)) ∨
      (k ∈ f.2.Databases.keys ∧ k ∈ (merged main pre).Databases.keys ∧
        mergeEntries env includeDir ((pre ++ f :: post).map Prod.fst) main =
          .error (duplicateDatabaseExit k f.1)) := by
  induction pre generalizing main with
  | nil =>
    rw [merged_nil] at hf ⊢
    have hfn := hnd f (by simp)
    have hl := hload f (by simp)
    have hstep : mergeEntries env includeDir (([] ++ f :: post).map Prod.fst) main =
        match mergeFragment f.1 f.2 main with
        | .error o => .error o
        | .ok config => mergeEntries env includeDir (post.map Prod.fst) config := by
      simp only [List.nil_append, List.map_cons]
      rw [mergeEntries, hl]
    obtain ⟨k, hk | hk⟩ := mergeFragment_dup f.1 f.2 main hfn.1 hfn.2 hf
    · exact ⟨k, Or.inl ⟨hk.1, hk.2.1, by rw [hstep, hk.2.2]⟩⟩
    · exact ⟨k, Or.inr ⟨hk.1, hk.2.1, by rw [hstep, hk.2.2]⟩⟩
  | cons g pre ih =>
    obtain ⟨h1, h2⟩ := (noCollision_cons main g pre).mp hpre
    have hgn := hnd g (by simp)
    have hl := hload g (by simp)
    have hstep : mergeEntries env includeDir ((g :: pre ++ f :: post).map Prod.fst) main =
        mergeEntries env includeDir ((pre ++ f :: post).map Prod.fst) (merged main [g]) := by
      simp only [List.cons_append, List.map_cons]
      rw [mergeEntries, hl]
      simp only
      rw [mergeFragment_ok g.1 g.2 main hgn.1 hgn.2 h1]
    rw [merged_cons] at hf ⊢
    rw [hstep]
    exact ih (merged main [g]) (fun x hx => hload x (List.mem_cons_of_mem _ hx))
      (fun x hx => hnd x (List.mem_cons_of_mem _ hx)) h2 hf

theorem first_collision (frags : List (String × Config)) (main : Config) :
    NoCollision main frags ∨
      ∃ pre f post, frags = pre ++ f :: post ∧ NoCollision main pre ∧
        Collides (merged main pre) f.2 := by
  induction frags generalizing main with
  | nil =>
    left
    intro pre f post h
    simp at h
  | cons g rest ih =>
    by_cases hg : Collides main g.2
    · right
      refine ⟨[], g, rest, rfl, ?_, by rwa [merged_nil]⟩
      intro pre f post h
      simp at h
    · rcases ih (merged main [g]) with h | ⟨pre, f, post, hsplit, hpre, hf⟩
      · left
        exact (noCollision_cons main g rest).mpr ⟨hg, h⟩
      · right
        refine ⟨g :: pre, f, post, by rw [hsplit]; rfl, ?_, by rwa [merged_cons]⟩
        exact (noCollision_cons main g pre).mpr ⟨hg, hpre⟩

/-- C2: with every fragment of the include directory loaded and merged in
listing order, the merge fails with a duplicate-key error exactly when some
fragment defines a query name (or database name) that the main config or an
earlier fragment defines as a query (or database); the error then names the
file of the first such fragment and a key of that fragment that was already
present; without such a fragment the merge yields the main config with all
fragments added; a failure of the merge is the failure of `newConfig`; and
two fragments that each define the query `q1` fail with the error naming `q1`
and the second file. -/
theorem mergeEntries_duplicate {R : Type} (env : Env R) (includeDir : String)
    (frags : List (String × Config)) (main : Config)
    (hload : ∀ f ∈ frags, env.loadFile (env.pathJoin includeDir f.1) = .ok f.2)
    (hnd : ∀ f ∈ frags, f.2.Queries.keys.Nodup ∧ f.2.Databases.keys.Nodup) :
    ((∃ k file,
        mergeEntries env includeDir (frags.map Prod.fst) main =
          .error (duplicateQueryExit k file) ∨
        mergeEntries env includeDir (frags.map Prod.fst) main =
          .error (duplicateDatabaseExit k file)) ↔
      ∃ pre f post, frags = pre ++ f :: post ∧ Collides (merged main pre) f.2) ∧
    (∀ pre f post, frags = pre ++ f :: post → NoCollision main pre →
      Collides (merged main pre) f.2 →
      ∃ k,
        (k ∈ f.2.Queries.keys ∧ k ∈ (merged main pre).Queries.keys ∧
          mergeEntries env includeDir (frags.map Prod.fst) main =
            .error (duplicateQueryExit k f.1)) ∨
        (k ∈ f.2.Databases.keys ∧ k ∈ (merged main pre).Databases.keys ∧
          mergeEntries env includeDir (frags.map Prod.fst) main =
            .error (duplicateDatabaseExit k f.1))) ∧
    (NoCollision main frags →
      mergeEntries env includeDir (frags.map Prod.fst) main = .ok (merged main frags)) ∧
    (∀ configPath o, env.loadFile configPath = .ok main → main.IncludeDir ≠ "" →
      includeDir = (if !env.pathIsAbs main.IncludeDir then
        env.pathJoin (env.pathDir configPath) main.IncludeDir else main.IncludeDir) →
      env.readDir includeDir = .ok (frags.map Prod.fst) →
      mergeEntries env includeDir (frags.map Prod.fst) main = .error o →
      newConfig env configPath = .error o) ∧
    (∀ (n1 n2 : String) (qa qb : Query), "q1" ∉ main.Queries.keys →
      frags = [(n1, ⟨"", [("q1", qa)], []⟩), (n2, ⟨"", [("q1", qb)], []⟩)] →
      mergeEntries env includeDir [n1, n2] main = .error (duplicateQueryExit "q1" n2)) := by
  have blame : ∀ pre f post, frags = pre ++ f :: post → NoCollision main pre →
      Collides (merged main pre) f.2 →
      ∃ k,
        (k ∈ f.2.Queries.keys ∧ k ∈ (merged main pre).Queries.keys ∧
          mergeEntries env includeDir (frags.map Prod.fst) main =
            .error (duplicateQueryExit k f.1)) ∨
        (k ∈ f.2.Databases.keys ∧ k ∈ (merged main pre).Databases.keys ∧
          mergeEntries env includeDir (frags.map Prod.fst) main =
            .error (duplicateDatabaseExit k f.1)) := by
    intro pre f post hsplit hpre hf
    subst hsplit
    exact mergeEntries_dup env includeDir pre f post main hload hnd hpre hf
  refine ⟨⟨?_, ?_⟩, blame, mergeEntries_ok env includeDir frags main hload hnd, ?_, ?_⟩
  · rintro ⟨k, file, hres⟩
    rcases first_collision frags main with hno | ⟨pre, f, post, hsplit, -, hf⟩
    · rw [mergeEntries_ok env includeDir frags main hload hnd hno] at hres
      rcases hres with hres | hres <;> cases hres
    · exact ⟨pre, f, post, hsplit, hf⟩
  · rintro ⟨pre, f, post, hsplit, hf⟩
    have hex : ¬ NoCollision main frags := fun hno => hno pre f post hsplit hf
    rcases first_collision frags main with hno | ⟨pre', f', post', hsplit', hpre', hf'⟩
    · exact absurd hno hex
    · obtain ⟨k, hk | hk⟩ := blame pre' f' post' hsplit' hpre' hf'
      · exact ⟨k, f'.1, Or.inl hk.2.2⟩
      · exact ⟨k, f'.1, Or.inr hk.2.2⟩
  · intro configPath o hmain hinc hdir hread hmerge
    unfold newConfig
    rw [hmain]
    simp only [hinc, ne_eq, not_false_eq_true, if_true, ← hdir, hread, hmerge]
  · intro n1 n2 qa qb hq1 hfrags
    have hpre : NoCollision main [(n1, ⟨"", [("q1", qa)], []⟩)] := by
      rw [noCollision_cons]
      refine ⟨?_, fun pre f post h => by simp at h⟩
      rintro (⟨k, hk, hmem⟩ | ⟨k, hk, -⟩)
      · simp only [GoMap.keys, List.map_cons, List.map_nil, List.mem_singleton] at hk
        exact hq1 (hk ▸ hmem)
      · simp [GoMap.keys] at hk
    have hf : Collides (merged main [(n1, ⟨"", [("q1", qa)], []⟩)])
        (n2, (⟨"", [("q1", qb)], []⟩ : Config)).2 :=
      Or.inl ⟨"q1", by simp [GoMap.keys], by simp [merged, GoMap.keys]⟩
    obtain ⟨k, hk | hk⟩ := blame [(n1, ⟨"", [("q1", qa)], []⟩)] (n2, ⟨"", [("q1", qb)], []⟩) []
      hfrags hpre hf
    · have hkq : k = "q1" := by simpa [GoMap.keys] using hk.1
      have hres := hk.2.2
      rw [hfrags, hkq] at hres
      exact hres
    · have := hk.1
      simp [GoMap.keys] at this

/-- C2 on an installation whose include directory holds `a.conf` and
`b.conf`, each defining the query `q1`: the load fails, naming `q1` and
`b.conf`. -/
theorem mergeEntries_duplicate_witness :
    mergeEntries duplicateEnv "./conf.d" ["a.conf", "b.conf"]
        ⟨"conf.d", [], [("db", demoDatabase)]⟩ =
      .error (duplicateQueryExit "q1" "b.conf") ∧
    newConfig duplicateEnv "check_database.conf" = .error (duplicateQueryExit "q1" "b.conf") := by
  have h := mergeEntries_duplicate duplicateEnv "./conf.d"
    [("a.conf", demoFragment), ("b.conf", demoFragment)] ⟨"conf.d", [], [("db", demoDatabase)]⟩
    (by decide) (by decide)
  have h1 := h.2.2.2.2 "a.conf" "b.conf" demoQuery demoQuery (by decide) rfl
  exact ⟨h1, h.2.2.2.1 "check_database.conf" _ rfl (by decide) rfl rfl h1⟩

/-! ## The defaults in the loaded configuration -/

/-- C3: the post-processing of one Database fails with the unknown-type
error when the port is zero and the type is neither empty, postgres nor
mysql, and otherwise yields the Database with an empty type set to postgres
and a zero port set to 5432 (postgres) or 3306 (mysql); over the whole map it
fails at the first such Database met and otherwise maps every Database to its
defaulted form under the same key; a non-zero port, a non-empty type and all
other fields are left as they were; empty type and zero port end as postgres
with port 5432; and `newConfig` fails or succeeds as this post-processing of
the databases of the merged config does: of the main config when there is no
include directory, of whatever the merge of the fragments yields when there
is one, which for fragments without a duplicate key is the main config with
the databases of all fragments added. -/
theorem postProcess_spec :
    (∀ db : Database, postProcessDatabase db =
      if UnknownType db then .error (unknownTypeExit db) else .ok (withDefaults db)) ∧
    (∀ dbs : GoMap Database, postProcess dbs =
      match dbs.find? (fun e => decide (UnknownType e.2)) with
      | some e => .error (unknownTypeExit e.2)
      | none => .ok (dbs.map fun e => (e.1, withDefaults e.2))) ∧
    (∀ db : Database,
      (withDefaults db).Typ = (if db.Typ = "" then "postgres" else db.Typ) ∧
      (withDefaults db).Port =
        (if db.Port ≠ 0 then db.Port
         else if db.Typ = "" ∨ db.Typ = "postgres" then 5432
         else if db.Typ = "mysql" then 3306 else db.Port) ∧
      (withDefaults db).Username = db.Username ∧ (withDefaults db).Password = db.Password ∧
      (withDefaults db).Hostname = db.Hostname ∧ (withDefaults db).Database = db.Database ∧
      (withDefaults db).SSL = db.SSL) ∧
    (∀ u p h d s : String, postProcessDatabase ⟨"", u, p, h, 0, d, s⟩ =
      .ok ⟨"postgres", u, p, h, 5432, d, s⟩) ∧
    (∀ (R : Type) (env : Env R) (queries : GoMap Query) (dbs : GoMap Database)
      (configPath : String),
      newConfig { env with loadFile := fun _ => .ok ⟨"", queries, dbs⟩ } configPath =
        match postProcess dbs with
        | .error o => .error o
        | .ok dbs => .ok ⟨"", queries, dbs⟩) ∧
    (∀ (R : Type) (env : Env R) (configPath : String) (main : Config),
      env.loadFile configPath = .ok main → main.IncludeDir = "" →
      newConfig env configPath =
        match main.Databases.find? (fun e => decide (UnknownType e.2)) with
        | some e => .error (unknownTypeExit e.2)
        | none => .ok { main with Databases := main.Databases.map fun e => (e.1, withDefaults e.2) }) ∧
    (∀ (R : Type) (env : Env R) (configPath includeDir : String) (main config : Config)
      (entries : List String),
      env.loadFile configPath = .ok main → main.IncludeDir ≠ "" →
      includeDir = (if !env.pathIsAbs main.IncludeDir then
        env.pathJoin (env.pathDir configPath) main.IncludeDir else main.IncludeDir) →
      env.readDir includeDir = .ok entries →
      mergeEntries env includeDir entries main = .ok config →
      newConfig env configPath =
        match config.Databases.find? (fun e => decide (UnknownType e.2)) with
        | some e => .error (unknownTypeExit e.2)
        | none =>
          .ok { config with Databases := config.Databases.map fun e => (e.1, withDefaults e.2) }) ∧
    (∀ (R : Type) (env : Env R) (configPath includeDir : String) (main : Config)
      (frags : List (String × Config)),
      env.loadFile configPath = .ok main → main.IncludeDir ≠ "" →
      includeDir = (if !env.pathIsAbs main.IncludeDir then
        env.pathJoin (env.pathDir configPath) main.IncludeDir else main.IncludeDir) →
      env.readDir includeDir = .ok (frags.map Prod.fst) →
      (∀ f ∈ frags, env.loadFile (env.pathJoin includeDir f.1) = .ok f.2) →
      (∀ f ∈ frags, f.2.Queries.keys.Nodup ∧ f.2.Databases.keys.Nodup) →
      NoCollision main frags →
      newConfig env configPath =
        match (merged main frags).Databases.find? (fun e => decide (UnknownType e.2)) with
        | some e => .error (unknownTypeExit e.2)
        | none =>
          .ok { merged main frags with
            Databases := (merged main frags).Databases.map fun e => (e.1, withDefaults e.2) }) := by
  have hmerged : ∀ (R : Type) (env : Env R) (configPath includeDir : String)
      (main config : Config) (entries : List String),
      env.loadFile configPath = .ok main → main.IncludeDir ≠ "" →
      includeDir = (if !env.pathIsAbs main.IncludeDir then
        env.pathJoin (env.pathDir configPath) main.IncludeDir else main.IncludeDir) →
      env.readDir includeDir = .ok entries →
      mergeEntries env includeDir entries main = .ok config →
      newConfig env configPath =
        match config.Databases.find? (fun e => decide (UnknownType e.2)) with
        | some e => .error (unknownTypeExit e.2)
        | none =>
          .ok { config with
            Databases := config.Databases.map fun e => (e.1, withDefaults e.2) } := by
    intro R env configPath includeDir main config entries hmain hinc hdir hread hmerge
    unfold newConfig
    rw [hmain]
    simp only [hinc, ne_eq, not_false_eq_true, if_true, ← hdir, hread, hmerge, postProcess_eq]
    cases config.Databases.find? (fun e => decide (UnknownType e.2)) <;> rfl
  refine ⟨postProcessDatabase_eq, postProcess_eq, fun db => ?_, fun u p h d s => ?_,
    fun R env queries dbs configPath => ?_, ?_, hmerged, ?_⟩
  · have hpm : ("postgres" : String) ≠ "mysql" := by decide
    unfold withDefaults
    by_cases h1 : db.Typ = "" <;> by_cases h2 : db.Port = 0 <;>
    by_cases h3 : db.Typ = "mysql" <;> by_cases h4 : db.Typ = "postgres" <;>
    simp_all
  · rw [postProcessDatabase_eq]
    simp [UnknownType, withDefaults]
  · unfold newConfig
    simp only [ne_eq, not_true_eq_false, if_false]
  · intro R env configPath main hmain hinc
    unfold newConfig
    rw [hmain]
    simp only [hinc, ne_eq, not_true_eq_false, if_false, postProcess_eq]
    cases main.Databases.find? (fun e => decide (UnknownType e.2)) <;> rfl
  · intro R env configPath includeDir main frags hmain hinc hdir hread hload hnd hno
    exact hmerged R env configPath includeDir main (merged main frags) (frags.map Prod.fst)
      hmain hinc hdir hread (mergeEntries_ok env includeDir frags main hload hnd hno)

/-- C3 on an installation with an include directory: the databases of the
fragment get their defaults, and a fragment with a database of type `oracle`
and unset port makes the load fail. -/
theorem postProcess_spec_witness :
    newConfig (defaultsEnv "conf.d") "check_database.conf" =
      .ok ⟨"conf.d", [], [("db", demoDatabase), ("raw", ⟨"postgres", "u", "", "h", 5432, "d", ""⟩),
        ("my", ⟨"mysql", "u", "", "h", 3306, "d", ""⟩)]⟩ ∧
    newConfig (defaultsEnv "conf.bad") "check_database.conf" =
      .error ⟨[.stdout "unknown database type for 'oracle'"], .exited 1⟩ :=
  ⟨(postProcess_spec.2.2.2.2.2.2.2 Int (defaultsEnv "conf.d") "check_database.conf" "./conf.d"
      ⟨"conf.d", [], [("db", demoDatabase)]⟩
      [("a.conf", ⟨"", [], [("raw", ⟨"", "u", "", "h", 0, "d", ""⟩),
        ("my", ⟨"mysql", "u", "", "h", 0, "d", ""⟩)]⟩)]
      rfl (by decide) rfl rfl (by decide) (by decide)
      ((noCollision_cons _ _ _).mpr ⟨by decide, fun pre f post h => by simp at h⟩)).trans rfl,
   (postProcess_spec.2.2.2.2.2.2.1 Int (defaultsEnv "conf.bad") "check_database.conf"
      "./conf.bad" ⟨"conf.bad", [], [("db", demoDatabase)]⟩
      ⟨"conf.bad", [], [("db", demoDatabase), ("raw", ⟨"", "u", "", "h", 0, "d", ""⟩),
        ("ora", ⟨"oracle", "u", "", "h", 0, "d", ""⟩)]⟩
      ["a.conf", "b.conf"] rfl (by decide) rfl rfl rfl).trans rfl⟩

end CheckDatabase
